import Mathlib

/-!
# IPtr: a smart pointer for reference counted COM interfaces

A shallow embedding of `include/iptr.h` (class template `IPtr::IPtr<T>` and its
friend functions) together with the reference counting protocol of the managed
objects, as implemented by the class `CAB` of `test/test_iptr.cpp`.

* An interface pointer `T*` is the address of the object it designates, a natural
  number; `0` is `nullptr`.
* Every wrapper is one pointer-sized storage cell `m_ptr`.  A wrapper is named
  by a natural number (its address), and the machine state maps every wrapper
  to the content of its cell.  Member functions take the wrapper they are
  called on as the argument `this`, references to wrappers (`IPtr&`) are
  wrapper names, so that aliasing (`a = std::move(a)`, `swap(a, a)`) is
  expressible.
* Every function is marked `noexcept` in the source and is total here.
-/

namespace IPtr

/-- An interface pointer `T*`: the address of the object, `0` for `nullptr`. -/
abbrev Ptr := Nat

/-- The null interface pointer. -/
def nullptr : Ptr := 0

/-- Modelled from the spec: the managed objects.  `iptr.h` is generic in the
interface `T` and only calls `T::AddRef` and `T::Release`, which are pure
virtual members of `IUnknown` (declared in the platform headers, not in the
repository).  Following section 6 of the specification and the class `CAB` of
the test program, every object carries a reference count `m_rc`; `deleted`
records how many times the object has run `delete this`.  The count is kept
as the exact integer (initial value, plus calls of `AddRef`, minus calls of
`Release`); `CAB` stores it in a `ULONG`, which holds the same value as long
as fewer than `2^32` references to one object are outstanding. -/
structure Heap where
  m_rc : Ptr → Int
  deleted : Ptr → Nat

/-- Modelled from the spec: "increment reference count" (`CAB::AddRef`:
`return ++m_rc;`).  The returned count is ignored by every caller in `iptr.h`. -/
def AddRef (h : Heap) (p : Ptr) : Heap :=
  { h with m_rc := Function.update h.m_rc p (h.m_rc p + 1) }

/-- Modelled from the spec: "decrement reference count; when the count reaches
zero, the object destroys itself" (`CAB::Release`: `long rc = --m_rc;
if(rc == 0) delete this;`).  The returned count is ignored by every caller. -/
def Release (h : Heap) (p : Ptr) : Heap :=
  let rc := h.m_rc p - 1
  { m_rc := Function.update h.m_rc p rc
    deleted := if rc = 0 then Function.update h.deleted p (h.deleted p + 1) else h.deleted }

/-- The target of a `T**`: the storage cell of a wrapper (what `set` returns)
or a raw pointer variable of the caller (`IA* ia; ... &ia`). -/
inductive Loc where
  | slot (w : Nat)
  | var (v : Nat)
  deriving DecidableEq

/-- The machine state: the objects, the cell `m_ptr` of every wrapper, and the
raw pointer variables of the caller. -/
structure State where
  heap : Heap
  m_ptr : Nat → Ptr
  var : Nat → Ptr

/-- Assignment through a `T**`: `*loc = p`. -/
def store (s : State) (loc : Loc) (p : Ptr) : State :=
  match loc with
  | Loc.slot w => { s with m_ptr := Function.update s.m_ptr w p }
  | Loc.var v => { s with var := Function.update s.var v p }

/-- `void InternalAddRef() const noexcept { if(m_ptr) m_ptr->AddRef(); }` -/
def InternalAddRef (s : State) (this : Nat) : State :=
  if s.m_ptr this ≠ nullptr then { s with heap := AddRef s.heap (s.m_ptr this) } else s

/-- `InternalRelease`: `T *temp = m_ptr; if(temp) { m_ptr = nullptr; temp->Release(); }` -/
def InternalRelease (s : State) (this : Nat) : State :=
  let temp := s.m_ptr this
  if temp ≠ nullptr then
    let s1 := { s with m_ptr := Function.update s.m_ptr this nullptr }
    { s1 with heap := Release s1.heap temp }
  else s

/-- `InternalCopy(T *other)`:
`if(m_ptr != other) { InternalRelease(); m_ptr = other; InternalAddRef(); }` -/
def InternalCopy (s : State) (this : Nat) (other : Ptr) : State :=
  if s.m_ptr this ≠ other then
    let s1 := InternalRelease s this
    let s2 := { s1 with m_ptr := Function.update s1.m_ptr this other }
    InternalAddRef s2 this
  else s

/-- `InternalMove(IPtr<U>& other)`: `if(m_ptr != other.m_ptr)
{ InternalRelease(); m_ptr = other.m_ptr; other.m_ptr = nullptr; }` -/
def InternalMove (s : State) (this other : Nat) : State :=
  if s.m_ptr this ≠ s.m_ptr other then
    let s1 := InternalRelease s this
    let s2 := { s1 with m_ptr := Function.update s1.m_ptr this (s1.m_ptr other) }
    { s2 with m_ptr := Function.update s2.m_ptr other nullptr }
  else s

/-- `IPtr() noexcept = default;` with the member initialiser `m_ptr = nullptr`. -/
def default_ctor (s : State) (this : Nat) : State :=
  { s with m_ptr := Function.update s.m_ptr this nullptr }

/-- `IPtr(const IPtr& other)` and `IPtr(const IPtr<U>& other)`, the same body:
`m_ptr(other.m_ptr) { InternalAddRef(); }` -/
def copy_ctor (s : State) (this other : Nat) : State :=
  let s1 := { s with m_ptr := Function.update s.m_ptr this (s.m_ptr other) }
  InternalAddRef s1 this

/-- `IPtr(IPtr<U>&& other)`: `m_ptr(other.m_ptr) { other.m_ptr = nullptr; }` -/
def move_ctor (s : State) (this other : Nat) : State :=
  let s1 := { s with m_ptr := Function.update s.m_ptr this (s.m_ptr other) }
  { s1 with m_ptr := Function.update s1.m_ptr other nullptr }

/-- `~IPtr() noexcept { InternalRelease(); }` -/
def dtor (s : State) (this : Nat) : State :=
  InternalRelease s this

/-- `operator=(const IPtr& other)` and `operator=(const IPtr<U>& other)`:
`InternalCopy(other.m_ptr); return *this;` -/
def assign_copy (s : State) (this other : Nat) : State :=
  InternalCopy s this (s.m_ptr other)

/-- `operator=(IPtr<U>&& other)`: `InternalMove(other); return *this;` -/
def assign_move (s : State) (this other : Nat) : State :=
  InternalMove s this other

/-- `operator=(std::nullptr_t)`: `InternalRelease(); return *this;` -/
def assign_nullptr (s : State) (this : Nat) : State :=
  InternalRelease s this

/-- `explicit operator bool() const noexcept { return m_ptr != nullptr; }` -/
def operator_bool (s : State) (this : Nat) : Bool :=
  s.m_ptr this != nullptr

/-- `friend T * get(const IPtr& obj) noexcept { return obj.m_ptr; }` -/
def get (s : State) (obj : Nat) : Ptr :=
  s.m_ptr obj

/-- `friend void attach(IPtr& obj, T *p)`: `obj.InternalRelease(); obj.m_ptr = p;` -/
def attach (s : State) (obj : Nat) (p : Ptr) : State :=
  let s1 := InternalRelease s obj
  { s1 with m_ptr := Function.update s1.m_ptr obj p }

/-- `friend T * detach(IPtr& obj)`:
`T * temp = obj.m_ptr; obj.m_ptr = nullptr; return temp;` -/
def detach (s : State) (obj : Nat) : State × Ptr :=
  let temp := s.m_ptr obj
  ({ s with m_ptr := Function.update s.m_ptr obj nullptr }, temp)

/-- `friend void swap(IPtr& left, IPtr& right)`:
`T *temp = left.m_ptr; left.m_ptr = right.m_ptr; right.m_ptr = temp;` -/
def swap (s : State) (left right : Nat) : State :=
  let temp := s.m_ptr left
  let s1 := { s with m_ptr := Function.update s.m_ptr left (s.m_ptr right) }
  { s1 with m_ptr := Function.update s1.m_ptr right temp }

/-- `void CopyFrom(T *other) noexcept { InternalCopy(other); }` -/
def CopyFrom (s : State) (this : Nat) (other : Ptr) : State :=
  InternalCopy s this other

/-- `void CopyTo(T **other) noexcept { InternalAddRef(); *other = m_ptr; }` -/
def CopyTo (s : State) (this : Nat) (other : Loc) : State :=
  let s1 := InternalAddRef s this
  store s1 other (s1.m_ptr this)

/-- `operator==(const IPtr<T>& left, const IPtr<T>& right)`:
`return get(left) == get(right);` -/
def operator_eq (s : State) (left right : Nat) : Bool :=
  get s left == get s right

/-- `friend T ** set(IPtr& obj)`: `assert(obj.m_ptr == nullptr); return &obj.m_ptr;`
The result is `none` when the assertion fails. -/
def set (s : State) (obj : Nat) : Option Loc :=
  if s.m_ptr obj = nullptr then some (Loc.slot obj) else none

/-- The number of wrappers among `0, ..., n - 1` whose cell holds `o`. -/
def holders (m : Nat → Ptr) : Nat → Ptr → Nat
  | 0, _ => 0
  | n + 1, o => holders m n o + (if m n = o then 1 else 0)

/-- The state of a whole program for ownership accounting: the machine state,
the number `n` of wrappers constructed so far (they are named `0, ..., n - 1`),
and for every object the number of raw references the caller owns (units the
caller has to balance with one `Release` each).  The entry of `owned` at
`nullptr` carries no meaning. -/
structure World where
  st : State
  n : Nat
  owned : Ptr → Nat

/-- The operations of a wrapper that take part in ownership accounting.
Constructors build the wrapper named `n`; `CopyTo` writes into the raw pointer
variable `out` of the caller. -/
inductive Op where
  | default_ctor
  | copy_ctor (other : Nat)
  | move_ctor (other : Nat)
  | assign_copy (this other : Nat)
  | assign_move (this other : Nat)
  | assign_nullptr (this : Nat)
  | dtor (this : Nat)
  | detach (obj : Nat)
  | attach (obj : Nat) (p : Ptr)
  | swap (left right : Nat)
  | CopyTo (this : Nat) (out : Nat)
  | CopyFrom (this : Nat) (other : Ptr)
  deriving DecidableEq

/-- One operation on the world.  The machine state changes as the source
says; the caller gains a unit for the reference that `detach` returns and for
the one that `CopyTo` writes, and gives up the unit it hands to `attach`. -/
def step (w : World) : Op → World
  | Op.default_ctor => { w with st := default_ctor w.st w.n, n := w.n + 1 }
  | Op.copy_ctor other => { w with st := copy_ctor w.st w.n other, n := w.n + 1 }
  | Op.move_ctor other => { w with st := move_ctor w.st w.n other, n := w.n + 1 }
  | Op.assign_copy this other => { w with st := assign_copy w.st this other }
  | Op.assign_move this other => { w with st := assign_move w.st this other }
  | Op.assign_nullptr this => { w with st := assign_nullptr w.st this }
  | Op.dtor this => { w with st := dtor w.st this }
  | Op.detach obj =>
      { w with st := (detach w.st obj).1
               owned := Function.update w.owned (detach w.st obj).2
                 (w.owned (detach w.st obj).2 + 1) }
  | Op.attach obj p =>
      { w with st := attach w.st obj p
               owned := Function.update w.owned p (w.owned p - 1) }
  | Op.swap left right => { w with st := swap w.st left right }
  | Op.CopyTo this out =>
      { w with st := CopyTo w.st this (Loc.var out)
               owned := Function.update w.owned (w.st.m_ptr this)
                 (w.owned (w.st.m_ptr this) + 1) }
  | Op.CopyFrom this other => { w with st := CopyFrom w.st this other }

/-- What the caller has to respect: an operation names wrappers that have been
constructed, `attach` is given `nullptr` or a raw reference the caller owns,
and `CopyFrom` is given `nullptr` or a pointer to an object that has not been
destroyed. -/
def Op.Valid (w : World) : Op → Prop
  | Op.default_ctor => True
  | Op.copy_ctor other => other < w.n
  | Op.move_ctor other => other < w.n
  | Op.assign_copy this other => this < w.n ∧ other < w.n
  | Op.assign_move this other => this < w.n ∧ other < w.n
  | Op.assign_nullptr this => this < w.n
  | Op.dtor this => this < w.n
  | Op.detach obj => obj < w.n
  | Op.attach obj p => obj < w.n ∧ (p = nullptr ∨ 0 < w.owned p)
  | Op.swap left right => left < w.n ∧ right < w.n
  | Op.CopyTo this _ => this < w.n
  | Op.CopyFrom this other => this < w.n ∧ (other = nullptr ∨ w.st.heap.deleted other = 0)

instance (w : World) (op : Op) : Decidable (op.Valid w) := by
  cases op <;> unfold Op.Valid <;> infer_instance

/-- A sequence of operations, executed from left to right. -/
def run (w : World) : List Op → World
  | [] => w
  | op :: ops => run (step w op) ops

/-- Every operation of the sequence is valid in the world it is executed in. -/
def ValidRun (w : World) : List Op → Prop
  | [] => True
  | op :: ops => op.Valid w ∧ ValidRun (step w op) ops

/-- Ownership accounting: the count of every object is the number of wrappers
holding it plus the number of raw references to it that the caller owns. -/
def Accounted (w : World) : Prop :=
  ∀ o : Ptr, o ≠ nullptr →
    w.st.heap.m_rc o = (holders w.st.m_ptr w.n o : Int) + (w.owned o : Int)

/-- No object has been destroyed more than once, and a destroyed object has
count zero. -/
def DestroyedOnce (w : World) : Prop :=
  ∀ o : Ptr, o ≠ nullptr →
    w.st.heap.deleted o = 0 ∨ (w.st.heap.deleted o = 1 ∧ w.st.heap.m_rc o = 0)

/-- The sequence `T *r = detach(w); attach(w2, r);` of the test program. -/
def detach_attach (s : State) (w w2 : Nat) : State :=
  let r := detach s w
  attach r.1 w2 r.2

/-- A small concrete state: object 7 has count 1 and is held by wrapper 0,
object 9 has count 2 and is held by wrappers 1 and 2; every other wrapper is
empty. -/
def demo : State where
  heap := { m_rc := fun o => if o = 7 then 1 else if o = 9 then 2 else 0
            deleted := fun _ => 0 }
  m_ptr := fun w => if w = 0 then 7 else if w = 1 then 9 else if w = 2 then 9 else 0
  var := fun _ => 0

/-- The life of an object as its count shows it: not destroyed and with a
positive count, or destroyed exactly once and with count zero. -/
def Lifecycle (w : World) (o : Ptr) : Prop :=
  (w.st.heap.deleted o = 0 ∧ 0 < w.st.heap.m_rc o) ∨
  (w.st.heap.deleted o = 1 ∧ w.st.heap.m_rc o = 0)

/-- The state `demo` as a world: three wrappers, no raw reference owned by the
caller. -/
def demoWorld : World where
  st := demo
  n := 3
  owned := fun _ => 0

/-- The scenario of section 8 of the specification on object 7 of `demoWorld`,
whose sole owner is wrapper 0: copy it into a new wrapper (3), destroy wrapper
0, move wrapper 3 into a new wrapper (4), destroy wrapper 4. -/
def scenario : List Op :=
  [Op.copy_ctor 0, Op.dtor 0, Op.move_ctor 3, Op.dtor 4]

/-- Dereference of a `T**`: `*loc`. -/
def load (s : State) (loc : Loc) : Ptr :=
  match loc with
  | Loc.slot w => s.m_ptr w
  | Loc.var v => s.var v

/-- Modelled from the spec: what decides a "query for capability".
`QueryInterface` is a pure virtual member of `IUnknown`; which interfaces an
object implements, and whether a failing query stores `nullptr` into the output
location or leaves it alone, is up to the object.  Interfaces are named by a
natural number (the `__uuidof` of the interface type). -/
structure Query where
  supports : Ptr → Nat → Bool
  clears : Ptr → Nat → Bool

/-- Modelled from the spec: "query for capability: given a requested
capability-set identity, produce a reference implementing it, incrementing its
count on success, or report not supported" (`CAB::QueryInterface`: on a
supported `riid` it stores the interface pointer into `*ppv`, calls `AddRef`
and returns `S_OK`; otherwise `return (*ppv = nullptr), E_NOINTERFACE;`).
The interface pointers of one object are identified with the object.  The
second component is `SUCCEEDED(hr)`. -/
def QueryInterface (q : Query) (s : State) (p : Ptr) (riid : Nat) (ppv : Loc) :
    State × Bool :=
  if q.supports p riid then
    let s1 := store s ppv p
    ({ s1 with heap := AddRef s1.heap p }, true)
  else if q.clears p riid then (store s ppv nullptr, false)
  else (s, false)

/-- `IPtr<U> As() const`: `IPtr<U> temp; m_ptr->QueryInterface(__uuidof(U),
reinterpret_cast<void**>(set(temp))); return temp;`  The local `temp` is the
returned wrapper, named `ret`; `riid` is `__uuidof(U)`.  The result is `none`
when `m_ptr` is `nullptr` (the call through it is undefined) or when the
assertion of `set` fails. -/
def As (q : Query) (s : State) (this ret : Nat) (riid : Nat) : Option State :=
  let s1 := default_ctor s ret
  if s1.m_ptr this = nullptr then none
  else
    match set s1 ret with
    | none => none
    | some ppv => some (QueryInterface q s1 (s1.m_ptr this) riid ppv).1

/-- `operator!=(const IPtr<T>& left, const IPtr<T>& right)`:
`return !(left == right);` -/
def operator_ne (s : State) (left right : Nat) : Bool :=
  !(operator_eq s left right)

/-- `operator<(const IPtr<T>& left, const IPtr<T>& right)`:
`return get(left) < get(right);`, the order of the addresses. -/
def operator_lt (s : State) (left right : Nat) : Bool :=
  decide (get s left < get s right)

/-- `operator>(const IPtr<T>& left, const IPtr<T>& right)`: `return right < left;` -/
def operator_gt (s : State) (left right : Nat) : Bool :=
  operator_lt s right left

/-- `operator<=(const IPtr<T>& left, const IPtr<T>& right)`:
`return !(right < left);` -/
def operator_le (s : State) (left right : Nat) : Bool :=
  !(operator_lt s right left)

/-- `operator>=(const IPtr<T>& left, const IPtr<T>& right)`:
`return !(left < right);` -/
def operator_ge (s : State) (left right : Nat) : Bool :=
  !(operator_lt s left right)

/-- The objects of the test program: every object implements the interfaces 1
and 2 (`IA`, `IB`) and no other, and a failing query stores `nullptr`. -/
def demoQuery : Query where
  supports := fun _ riid => riid == 1 || riid == 2
  clears := fun _ _ => true

/-! ## Objects with several interface pointers

An object that implements several interfaces (`class CAB : public IA, public IB`)
has one reference count and one raw interface pointer per interface: the `IA*`
and the `IB*` of one `CAB` are different addresses.  Wrappers of type
`IPtr<IUnknown>` can hold either of them.  The definitions of this section
repeat the copy path of `iptr.h` over objects of that kind: the count is kept
per object, and `obj p` is the object that the raw interface pointer `p`
belongs to. -/

namespace Aliased

/-- Modelled from the spec: managed objects with several interface pointers.
`obj p` is the object behind the raw interface pointer `p`; `m_rc` and
`deleted` (the count, and how often `delete this` has run) are kept per
object, as the one field `m_rc` of a `CAB` serves its `IA*` and its `IB*`. -/
structure Heap where
  obj : Ptr → Nat
  m_rc : Nat → Int
  deleted : Nat → Nat

/-- Modelled from the spec: "increment reference count", called through the
interface pointer `p`; it raises the count of the object of `p`
(`CAB::AddRef`: `return ++m_rc;`). -/
def AddRef (h : Heap) (p : Ptr) : Heap :=
  { h with m_rc := Function.update h.m_rc (h.obj p) (h.m_rc (h.obj p) + 1) }

/-- Modelled from the spec: "decrement reference count; when the count reaches
zero, the object destroys itself", called through the interface pointer `p`
(`CAB::Release`: `long rc = --m_rc; if(rc == 0) delete this;`). -/
def Release (h : Heap) (p : Ptr) : Heap :=
  let rc := h.m_rc (h.obj p) - 1
  { h with
    m_rc := Function.update h.m_rc (h.obj p) rc
    deleted :=
      if rc = 0 then Function.update h.deleted (h.obj p) (h.deleted (h.obj p) + 1)
      else h.deleted }

/-- The machine state: the objects and the cell `m_ptr` of every wrapper. -/
structure State where
  heap : Heap
  m_ptr : Nat → Ptr

/-- `void InternalAddRef() const noexcept { if(m_ptr) m_ptr->AddRef(); }` -/
def InternalAddRef (s : State) (this : Nat) : State :=
  if s.m_ptr this ≠ nullptr then { s with heap := AddRef s.heap (s.m_ptr this) } else s

/-- `InternalRelease`: `T *temp = m_ptr; if(temp) { m_ptr = nullptr; temp->Release(); }` -/
def InternalRelease (s : State) (this : Nat) : State :=
  let temp := s.m_ptr this
  if temp ≠ nullptr then
    let s1 := { s with m_ptr := Function.update s.m_ptr this nullptr }
    { s1 with heap := Release s1.heap temp }
  else s

/-- `InternalCopy(T *other)`:
`if(m_ptr != other) { InternalRelease(); m_ptr = other; InternalAddRef(); }` -/
def InternalCopy (s : State) (this : Nat) (other : Ptr) : State :=
  if s.m_ptr this ≠ other then
    let s1 := InternalRelease s this
    let s2 := { s1 with m_ptr := Function.update s1.m_ptr this other }
    InternalAddRef s2 this
  else s

/-- `void CopyFrom(T *other) noexcept { InternalCopy(other); }` -/
def CopyFrom (s : State) (this : Nat) (other : Ptr) : State :=
  InternalCopy s this other

/-- `explicit operator bool() const noexcept { return m_ptr != nullptr; }` -/
def operator_bool (s : State) (this : Nat) : Bool :=
  s.m_ptr this != nullptr

/-- A small concrete state.  The raw pointers 16 and 24 belong to object 16,
the raw pointers 32 and 40 to object 32 (an object is named by the first of
its interface pointers, the second lies 8 bytes above).  Object 16 has count
1 and is held by wrapper 0 through the pointer 16; object 32 has count 2 and is
held by wrapper 1 through 32 and by wrapper 2 through 40; every other wrapper
is empty. -/
def demo : State where
  heap := { obj := fun p => p - p % 16
            m_rc := fun o => if o = 16 then 1 else if o = 32 then 2 else 0
            deleted := fun _ => 0 }
  m_ptr := fun w => if w = 0 then 16 else if w = 1 then 32 else if w = 2 then 40 else 0

end Aliased

/-! ## Effect of the building blocks -/

theorem Release_m_rc (h : Heap) (p o : Ptr) :
    (Release h p).m_rc o = if o = p then h.m_rc o - 1 else h.m_rc o := by
  by_cases hp : o = p <;> simp [Release, Function.update, hp]

theorem Release_deleted (h : Heap) (p o : Ptr) :
    (Release h p).deleted o =
      if o = p ∧ h.m_rc o = 1 then h.deleted o + 1 else h.deleted o := by
  by_cases hp : o = p
  · subst hp
    by_cases h1 : h.m_rc o = 1
    · simp [Release, h1]
    · have h2 : ¬ (h.m_rc o - 1 = 0) := by omega
      simp [Release, h1, h2]
  · simp only [Release, hp, false_and, if_false]
    split_ifs <;> simp [Function.update, hp]

theorem AddRef_m_rc (h : Heap) (p o : Ptr) :
    (AddRef h p).m_rc o = if o = p then h.m_rc o + 1 else h.m_rc o := by
  by_cases hp : o = p <;> simp [AddRef, Function.update, hp]

theorem InternalRelease_m_ptr (s : State) (this : Nat) :
    (InternalRelease s this).m_ptr = Function.update s.m_ptr this nullptr := by
  unfold InternalRelease
  by_cases h : s.m_ptr this = nullptr
  · simp only [h, ne_eq, not_true_eq_false, if_false]
    rw [← h, Function.update_eq_self]
  · simp [h]

theorem InternalRelease_m_rc (s : State) (this : Nat) (o : Ptr) :
    (InternalRelease s this).heap.m_rc o =
      if o = s.m_ptr this ∧ o ≠ nullptr then s.heap.m_rc o - 1 else s.heap.m_rc o := by
  unfold InternalRelease
  by_cases h : s.m_ptr this = nullptr
  · have : ¬ (o = s.m_ptr this ∧ o ≠ nullptr) := by rintro ⟨h1, h2⟩; exact h2 (h1.trans h)
    simp [h, this]
  · by_cases ho : o = s.m_ptr this
    · subst ho; simp [h, Release_m_rc]
    · simp [h, ho, Release_m_rc]

theorem InternalRelease_deleted (s : State) (this : Nat) (o : Ptr) :
    (InternalRelease s this).heap.deleted o =
      if o = s.m_ptr this ∧ o ≠ nullptr ∧ s.heap.m_rc o = 1 then s.heap.deleted o + 1
      else s.heap.deleted o := by
  unfold InternalRelease
  by_cases h : s.m_ptr this = nullptr
  · have : ¬ (o = s.m_ptr this ∧ o ≠ nullptr ∧ s.heap.m_rc o = 1) := by
      rintro ⟨h1, h2, _⟩; exact h2 (h1.trans h)
    rw [if_neg this]
    simp [h]
  · by_cases ho : o = s.m_ptr this
    · subst ho; simp [h, Release_deleted]
    · simp [h, ho, Release_deleted]

theorem InternalRelease_var (s : State) (this : Nat) :
    (InternalRelease s this).var = s.var := by
  simp only [InternalRelease]
  split_ifs <;> rfl

theorem InternalAddRef_m_ptr (s : State) (this : Nat) :
    (InternalAddRef s this).m_ptr = s.m_ptr := by
  unfold InternalAddRef
  split_ifs <;> rfl

theorem InternalAddRef_var (s : State) (this : Nat) :
    (InternalAddRef s this).var = s.var := by
  unfold InternalAddRef
  split_ifs <;> rfl

theorem InternalAddRef_deleted (s : State) (this : Nat) :
    (InternalAddRef s this).heap.deleted = s.heap.deleted := by
  unfold InternalAddRef
  split_ifs <;> rfl

theorem InternalAddRef_m_rc (s : State) (this : Nat) (o : Ptr) :
    (InternalAddRef s this).heap.m_rc o =
      if o = s.m_ptr this ∧ o ≠ nullptr then s.heap.m_rc o + 1 else s.heap.m_rc o := by
  unfold InternalAddRef
  by_cases h : s.m_ptr this = nullptr
  · have : ¬ (o = s.m_ptr this ∧ o ≠ nullptr) := by rintro ⟨h1, h2⟩; exact h2 (h1.trans h)
    simp [h, this]
  · by_cases ho : o = s.m_ptr this
    · subst ho; simp [h, AddRef_m_rc]
    · simp [h, ho, AddRef_m_rc]


theorem InternalCopy_m_ptr (s : State) (this : Nat) (other : Ptr) :
    (InternalCopy s this other).m_ptr = Function.update s.m_ptr this other := by
  unfold InternalCopy
  by_cases h : s.m_ptr this = other
  · simp only [h, ne_eq, not_true_eq_false, if_false]
    rw [← h, Function.update_eq_self]
  · simp [h, InternalAddRef_m_ptr, InternalRelease_m_ptr]

theorem InternalCopy_var (s : State) (this : Nat) (other : Ptr) :
    (InternalCopy s this other).var = s.var := by
  unfold InternalCopy
  split_ifs
  · simp [InternalAddRef_var, InternalRelease_var]
  · rfl

theorem InternalCopy_m_rc (s : State) (this : Nat) (other o : Ptr) :
    (InternalCopy s this other).heap.m_rc o =
      if s.m_ptr this = other then s.heap.m_rc o
      else if o = s.m_ptr this ∧ o ≠ nullptr then s.heap.m_rc o - 1
      else if o = other ∧ o ≠ nullptr then s.heap.m_rc o + 1
      else s.heap.m_rc o := by
  unfold InternalCopy
  by_cases h : s.m_ptr this = other
  · simp [h]
  · simp only [ne_eq, h, not_false_eq_true, if_true, if_false, InternalAddRef_m_rc,
      Function.update_same, InternalRelease_m_rc]
    by_cases h1 : o = other
    · have h2 : ¬ (o = s.m_ptr this) := fun h3 => h (h3.symm.trans h1)
      simp [h1, h2]
      subst h1
      simp [h2]
    · simp [h1]

theorem InternalCopy_deleted (s : State) (this : Nat) (other o : Ptr) :
    (InternalCopy s this other).heap.deleted o =
      if s.m_ptr this ≠ other ∧ o = s.m_ptr this ∧ o ≠ nullptr ∧ s.heap.m_rc o = 1
      then s.heap.deleted o + 1 else s.heap.deleted o := by
  unfold InternalCopy
  by_cases h : s.m_ptr this = other
  · simp [h]
  · simp [h, InternalAddRef_deleted, InternalRelease_deleted]

theorem InternalMove_of_eq (s : State) (this other : Nat)
    (h : s.m_ptr this = s.m_ptr other) : InternalMove s this other = s := by
  simp [InternalMove, h]

theorem InternalMove_m_ptr (s : State) (this other : Nat)
    (h : s.m_ptr this ≠ s.m_ptr other) :
    (InternalMove s this other).m_ptr =
      Function.update (Function.update s.m_ptr this (s.m_ptr other)) other nullptr := by
  have hne : other ≠ this := fun e => h (by rw [e])
  simp [InternalMove, h, InternalRelease_m_ptr, Function.update_noteq hne]

theorem InternalMove_m_rc (s : State) (this other : Nat) (o : Ptr) :
    (InternalMove s this other).heap.m_rc o =
      if s.m_ptr this ≠ s.m_ptr other ∧ o = s.m_ptr this ∧ o ≠ nullptr
      then s.heap.m_rc o - 1 else s.heap.m_rc o := by
  unfold InternalMove
  by_cases h : s.m_ptr this = s.m_ptr other
  · simp [h]
  · simp [h, InternalRelease_m_rc]

theorem InternalMove_deleted (s : State) (this other : Nat) (o : Ptr) :
    (InternalMove s this other).heap.deleted o =
      if s.m_ptr this ≠ s.m_ptr other ∧ o = s.m_ptr this ∧ o ≠ nullptr ∧ s.heap.m_rc o = 1
      then s.heap.deleted o + 1 else s.heap.deleted o := by
  unfold InternalMove
  by_cases h : s.m_ptr this = s.m_ptr other
  · simp [h]
  · simp [h, InternalRelease_deleted]

theorem attach_m_ptr (s : State) (obj : Nat) (p : Ptr) :
    (attach s obj p).m_ptr = Function.update s.m_ptr obj p := by
  simp [attach, InternalRelease_m_ptr]

theorem attach_m_rc (s : State) (obj : Nat) (p o : Ptr) :
    (attach s obj p).heap.m_rc o =
      if o = s.m_ptr obj ∧ o ≠ nullptr then s.heap.m_rc o - 1 else s.heap.m_rc o := by
  simp [attach, InternalRelease_m_rc]

theorem attach_deleted (s : State) (obj : Nat) (p o : Ptr) :
    (attach s obj p).heap.deleted o =
      if o = s.m_ptr obj ∧ o ≠ nullptr ∧ s.heap.m_rc o = 1 then s.heap.deleted o + 1
      else s.heap.deleted o := by
  simp [attach, InternalRelease_deleted]

/-! ## Effect of the single operations -/

/-- C2: copy construction of `this` from a non-empty wrapper `other` adds exactly
one to the count of the target and changes no other count, destroys nothing,
leaves `other` and every wrapper but `this` unchanged, and makes `this == other`
hold; copy construction from an empty wrapper yields an empty wrapper and
leaves all objects as they are. -/
theorem copy_ctor_effect (s : State) (this other : Nat) :
    (s.m_ptr other ≠ nullptr →
      (copy_ctor s this other).heap.m_rc (s.m_ptr other) = s.heap.m_rc (s.m_ptr other) + 1 ∧
      (∀ o, o ≠ s.m_ptr other → (copy_ctor s this other).heap.m_rc o = s.heap.m_rc o) ∧
      (copy_ctor s this other).heap.deleted = s.heap.deleted ∧
      (copy_ctor s this other).m_ptr other = s.m_ptr other ∧
      (∀ w, w ≠ this → (copy_ctor s this other).m_ptr w = s.m_ptr w) ∧
      operator_eq (copy_ctor s this other) this other = true) ∧
    (s.m_ptr other = nullptr →
      (copy_ctor s this other).m_ptr this = nullptr ∧
      operator_bool (copy_ctor s this other) this = false ∧
      (copy_ctor s this other).heap = s.heap ∧
      (copy_ctor s this other).m_ptr other = s.m_ptr other ∧
      (∀ w, w ≠ this → (copy_ctor s this other).m_ptr w = s.m_ptr w)) := by
  constructor
  · intro h
    simp only [copy_ctor, InternalAddRef, Function.update_same, ne_eq, h, not_false_eq_true,
      if_true, AddRef, operator_eq, get]
    refine ⟨trivial, ?_, trivial, ?_, ?_, ?_⟩
    · intro o ho
      simp [Function.update, ho]
    · by_cases hw : other = this <;> simp [Function.update, hw]
    · intro w hw
      simp [Function.update, hw]
    · by_cases hw : other = this <;> simp [Function.update, hw]
  · intro h
    simp only [copy_ctor, InternalAddRef, Function.update_same, ne_eq, h, not_true_eq_false,
      if_false, operator_bool]
    refine ⟨trivial, by simp, trivial, ?_, ?_⟩
    · by_cases hw : other = this <;> simp [Function.update, hw, h]
    · intro w hw
      simp [Function.update, hw]



/-- C3: copy assignment `this = other` leaves `this` holding the target of
`other` and `other` (and every wrapper but `this`) unchanged.  When the two
targets differ, the count of the prior target of `this` (if any) goes down by
exactly one, the count of the target of `other` (if any) goes up by exactly
one, and no other count changes; when the targets are the same (or both
wrappers are empty) the state is unchanged. -/
theorem assign_copy_effect (s : State) (this other : Nat) :
    (assign_copy s this other).m_ptr this = s.m_ptr other ∧
    (assign_copy s this other).m_ptr other = s.m_ptr other ∧
    (∀ w, w ≠ this → (assign_copy s this other).m_ptr w = s.m_ptr w) ∧
    (s.m_ptr this ≠ s.m_ptr other →
      (s.m_ptr this ≠ nullptr →
        (assign_copy s this other).heap.m_rc (s.m_ptr this)
          = s.heap.m_rc (s.m_ptr this) - 1) ∧
      (s.m_ptr other ≠ nullptr →
        (assign_copy s this other).heap.m_rc (s.m_ptr other)
          = s.heap.m_rc (s.m_ptr other) + 1) ∧
      (∀ o, (o ≠ s.m_ptr this ∨ o = nullptr) → (o ≠ s.m_ptr other ∨ o = nullptr) →
        (assign_copy s this other).heap.m_rc o = s.heap.m_rc o)) ∧
    (s.m_ptr this = s.m_ptr other → assign_copy s this other = s) := by
  refine ⟨?_, ?_, ?_, ?_, ?_⟩
  · simp [assign_copy, InternalCopy_m_ptr]
  · by_cases hw : other = this <;> simp [assign_copy, InternalCopy_m_ptr, Function.update, hw]
  · intro w hw
    simp [assign_copy, InternalCopy_m_ptr, Function.update, hw]
  · intro hne
    refine ⟨?_, ?_, ?_⟩
    · intro h
      simp [assign_copy, InternalCopy_m_rc, hne, h]
    · intro h
      have hne2 : ¬ (s.m_ptr other = s.m_ptr this) := fun e => hne e.symm
      simp [assign_copy, InternalCopy_m_rc, hne, h, hne2]
    · intro o h1 h2
      have a1 : ¬ (o = s.m_ptr this ∧ o ≠ nullptr) := by
        rintro ⟨e1, e2⟩
        rcases h1 with h1 | h1
        · exact h1 e1
        · exact e2 h1
      have a2 : ¬ (o = s.m_ptr other ∧ o ≠ nullptr) := by
        rintro ⟨e1, e2⟩
        rcases h2 with h2 | h2
        · exact h2 e1
        · exact e2 h2
      simp only [assign_copy, InternalCopy_m_rc, hne, if_false, a1, a2]
  · intro h
    simp [assign_copy, InternalCopy, h]

/-- C4: move construction of a new wrapper `this` from `other` changes no
object (no count, nothing destroyed), leaves `other` empty with a false boolean
test, and leaves `this` holding exactly what `other` held, so `this` is
non-empty iff `other` was. -/
theorem move_ctor_effect (s : State) (this other : Nat) (hnew : this ≠ other) :
    (move_ctor s this other).heap = s.heap ∧
    (move_ctor s this other).m_ptr other = nullptr ∧
    operator_bool (move_ctor s this other) other = false ∧
    (move_ctor s this other).m_ptr this = s.m_ptr other ∧
    operator_bool (move_ctor s this other) this = operator_bool s other ∧
    (∀ w, w ≠ this → w ≠ other → (move_ctor s this other).m_ptr w = s.m_ptr w) := by
  refine ⟨rfl, ?_, ?_, ?_, ?_, ?_⟩
  · simp [move_ctor]
  · simp [move_ctor, operator_bool]
  · simp [move_ctor, Function.update, hnew]
  · simp [move_ctor, operator_bool, Function.update, hnew]
  · intro w h1 h2
    simp [move_ctor, Function.update, h1, h2]

/-- C5: move assignment `this = std::move(other)` from a non-empty `other`
whose target differs from the target of `this` leaves `other` empty and `this`
holding the former target of `other`, does not change the count of that
target, lowers the count of the prior target of `this` (if any) by exactly one
and changes no other count. -/
theorem assign_move_effect (s : State) (this other : Nat)
    (hsrc : s.m_ptr other ≠ nullptr) (hne : s.m_ptr this ≠ s.m_ptr other) :
    (assign_move s this other).m_ptr other = nullptr ∧
    operator_bool (assign_move s this other) other = false ∧
    (assign_move s this other).m_ptr this = s.m_ptr other ∧
    operator_bool (assign_move s this other) this = true ∧
    (assign_move s this other).heap.m_rc (s.m_ptr other) = s.heap.m_rc (s.m_ptr other) ∧
    (s.m_ptr this ≠ nullptr →
      (assign_move s this other).heap.m_rc (s.m_ptr this) = s.heap.m_rc (s.m_ptr this) - 1) ∧
    (∀ o, (o ≠ s.m_ptr this ∨ o = nullptr) →
      (assign_move s this other).heap.m_rc o = s.heap.m_rc o) ∧
    (∀ w, w ≠ this → w ≠ other → (assign_move s this other).m_ptr w = s.m_ptr w) := by
  have hw : this ≠ other := fun e => hne (by rw [e])
  have hne2 : ¬ (s.m_ptr other = s.m_ptr this) := fun e => hne e.symm
  refine ⟨?_, ?_, ?_, ?_, ?_, ?_, ?_, ?_⟩
  · simp [assign_move, InternalMove_m_ptr, hne]
  · simp [assign_move, operator_bool, InternalMove_m_ptr, hne]
  · simp [assign_move, InternalMove_m_ptr, hne, Function.update, hw]
  · simp [assign_move, operator_bool, InternalMove_m_ptr, hne, Function.update, hw, hsrc]
  · simp [assign_move, InternalMove_m_rc, hne2]
  · intro h
    simp [assign_move, InternalMove_m_rc, hne, h]
  · intro o ho
    have a1 : ¬ (s.m_ptr this ≠ s.m_ptr other ∧ o = s.m_ptr this ∧ o ≠ nullptr) := by
      rintro ⟨_, e1, e2⟩
      rcases ho with ho | ho
      · exact ho e1
      · exact e2 ho
    simp only [assign_move, InternalMove_m_rc, a1, if_false]
  · intro w h1 h2
    simp [assign_move, InternalMove_m_ptr, hne, Function.update, h1, h2]

/-- C6, as amended: when `this` and `other` hold equal raw references (the
same interface pointer, or both `nullptr`, or they are the same wrapper), move
assignment `this = std::move(other)` changes nothing: no count changes,
nothing is released, and `other` keeps what it held. -/
theorem assign_move_same_target (s : State) (this other : Nat)
    (hsame : s.m_ptr this = s.m_ptr other) :
    assign_move s this other = s ∧
    (∀ o, (assign_move s this other).heap.m_rc o = s.heap.m_rc o) ∧
    (assign_move s this other).m_ptr this = s.m_ptr this ∧
    (assign_move s this other).m_ptr other = s.m_ptr other ∧
    operator_bool (assign_move s this other) other = operator_bool s other := by
  have h : assign_move s this other = s := by
    unfold assign_move InternalMove
    rw [if_neg (fun hne => hne hsame)]
  rw [h]
  exact ⟨rfl, fun _ => rfl, rfl, rfl, rfl⟩

/-- C7: clearing a wrapper, by `= nullptr` or by its destructor (the same
code).  A non-empty wrapper ends empty, the count of its target is lowered by
exactly one and no other count changes; on an empty wrapper nothing changes at
all (so no `Release` was called); clearing twice is the same as clearing
once. -/
theorem clear_effect (s : State) (this : Nat) :
    dtor s this = assign_nullptr s this ∧
    (s.m_ptr this ≠ nullptr →
      (assign_nullptr s this).heap.m_rc (s.m_ptr this) = s.heap.m_rc (s.m_ptr this) - 1 ∧
      (∀ o, o ≠ s.m_ptr this → (assign_nullptr s this).heap.m_rc o = s.heap.m_rc o) ∧
      (assign_nullptr s this).m_ptr this = nullptr ∧
      operator_bool (assign_nullptr s this) this = false ∧
      (∀ w, w ≠ this → (assign_nullptr s this).m_ptr w = s.m_ptr w)) ∧
    (s.m_ptr this = nullptr → assign_nullptr s this = s) ∧
    assign_nullptr (assign_nullptr s this) this = assign_nullptr s this ∧
    dtor (assign_nullptr s this) this = assign_nullptr s this := by
  have hidem : assign_nullptr (assign_nullptr s this) this = assign_nullptr s this := by
    have h0 : (InternalRelease s this).m_ptr this = nullptr := by
      simp [InternalRelease_m_ptr]
    show InternalRelease (InternalRelease s this) this = InternalRelease s this
    generalize InternalRelease s this = s1 at h0
    simp [InternalRelease, h0]
  refine ⟨rfl, ?_, ?_, hidem, hidem⟩
  · intro h
    refine ⟨?_, ?_, ?_, ?_, ?_⟩
    · simp [assign_nullptr, InternalRelease_m_rc, h]
    · intro o ho
      simp [assign_nullptr, InternalRelease_m_rc, ho]
    · simp [assign_nullptr, InternalRelease_m_ptr]
    · simp [assign_nullptr, operator_bool, InternalRelease_m_ptr]
    · intro w hw
      simp [assign_nullptr, InternalRelease_m_ptr, Function.update, hw]
  · intro h
    simp [assign_nullptr, InternalRelease, h]

/-- C8: `detach` returns the raw reference the wrapper held (`nullptr` for an
empty wrapper), leaves the wrapper empty, leaves every other wrapper as it
was, and changes no object. -/
theorem detach_effect (s : State) (obj : Nat) :
    (detach s obj).2 = s.m_ptr obj ∧
    (detach s obj).2 = get s obj ∧
    (detach s obj).1.m_ptr obj = nullptr ∧
    operator_bool (detach s obj).1 obj = false ∧
    (detach s obj).1.heap = s.heap ∧
    (∀ w, w ≠ obj → (detach s obj).1.m_ptr w = s.m_ptr w) := by
  refine ⟨rfl, rfl, ?_, ?_, rfl, ?_⟩
  · simp [detach]
  · simp [detach, operator_bool]
  · intro w hw
    simp [detach, Function.update, hw]

/-- C9: `attach(obj, p)` leaves `obj` holding `p`, never raises the count of
`p`, lowers the count of the prior target of `obj` (if any) by exactly one, and
changes no other count and no other wrapper. -/
theorem attach_effect (s : State) (obj : Nat) (p : Ptr) :
    (attach s obj p).m_ptr obj = p ∧
    (attach s obj p).heap.m_rc p ≤ s.heap.m_rc p ∧
    (s.m_ptr obj ≠ nullptr →
      (attach s obj p).heap.m_rc (s.m_ptr obj) = s.heap.m_rc (s.m_ptr obj) - 1) ∧
    (∀ o, (o ≠ s.m_ptr obj ∨ o = nullptr) → (attach s obj p).heap.m_rc o = s.heap.m_rc o) ∧
    (∀ w, w ≠ obj → (attach s obj p).m_ptr w = s.m_ptr w) := by
  refine ⟨?_, ?_, ?_, ?_, ?_⟩
  · simp [attach_m_ptr]
  · rw [attach_m_rc]
    split_ifs <;> omega
  · intro h
    simp [attach_m_rc, h]
  · intro o ho
    have a1 : ¬ (o = s.m_ptr obj ∧ o ≠ nullptr) := by
      rintro ⟨e1, e2⟩
      rcases ho with ho | ho
      · exact ho e1
      · exact e2 ho
    rw [attach_m_rc, if_neg a1]
  · intro w hw
    simp [attach_m_ptr, Function.update, hw]

/-- C10, as amended: for a non-empty wrapper `w`, `r = detach(w)` followed by
`attach(w2, r)` leaves `w2` non-empty and holding `r`.  The count of the
object `r` is unchanged when `w2` is `w` itself or held something else (or
nothing); when `w2` is a different wrapper that already held that object, the
unit `w2` held before is released and the count is lowered by exactly one. -/
theorem detach_attach_effect (s : State) (w w2 : Nat) (hw : s.m_ptr w ≠ nullptr) :
    (detach s w).2 = s.m_ptr w ∧
    (detach_attach s w w2).m_ptr w2 = s.m_ptr w ∧
    operator_bool (detach_attach s w w2) w2 = true ∧
    (w2 = w ∨ s.m_ptr w2 ≠ s.m_ptr w →
      (detach_attach s w w2).heap.m_rc (s.m_ptr w) = s.heap.m_rc (s.m_ptr w)) ∧
    (w2 ≠ w → s.m_ptr w2 = s.m_ptr w →
      (detach_attach s w w2).heap.m_rc (s.m_ptr w) = s.heap.m_rc (s.m_ptr w) - 1) := by
  have hm : (detach s w).1.m_ptr = Function.update s.m_ptr w nullptr := rfl
  have hh : (detach s w).1.heap = s.heap := rfl
  have h2 : (detach s w).2 = s.m_ptr w := rfl
  refine ⟨rfl, ?_, ?_, ?_, ?_⟩
  · simp [detach_attach, attach_m_ptr, h2]
  · simp [detach_attach, operator_bool, attach_m_ptr, h2, hw]
  · intro h
    simp only [detach_attach, attach_m_rc, hm, hh]
    rcases h with h | h
    · subst h
      have : ¬ (s.m_ptr w2 = nullptr ∧ s.m_ptr w2 ≠ nullptr) := fun ⟨a, b⟩ => b a
      simp [this]
    · have hne : w2 ≠ w := fun e => h (by rw [e])
      have : ¬ (s.m_ptr w = s.m_ptr w2 ∧ s.m_ptr w ≠ nullptr) := fun ⟨a, _⟩ => h a.symm
      simp [Function.update, hne, this]
  · intro hne hsame
    simp only [detach_attach, attach_m_rc, hm, hh]
    simp [Function.update, hne, hsame, hw]

theorem holders_update_ge (m : Nat → Ptr) (n w : Nat) (v o : Ptr) (h : n ≤ w) :
    holders (Function.update m w v) n o = holders m n o := by
  induction n with
  | zero => rfl
  | succ k ih =>
    have hk : k ≠ w := by omega
    simp only [holders, Function.update_noteq hk]
    rw [ih (by omega)]

theorem holders_update_lt (m : Nat → Ptr) (n w : Nat) (v o : Ptr) (h : w < n) :
    holders (Function.update m w v) n o + (if m w = o then 1 else 0) =
      holders m n o + (if v = o then 1 else 0) := by
  induction n with
  | zero => omega
  | succ k ih =>
    by_cases hk : w = k
    · subst hk
      simp only [holders, Function.update_same]
      rw [holders_update_ge m w w v o (le_refl w)]
      omega
    · have hk2 : k ≠ w := fun e => hk e.symm
      simp only [holders, Function.update_noteq hk2]
      have := ih (by omega)
      omega

theorem holders_pos (m : Nat → Ptr) (n w : Nat) (o : Ptr) (h : w < n) (hw : m w = o) :
    0 < holders m n o := by
  induction n with
  | zero => omega
  | succ k ih =>
    by_cases hk : w = k
    · subst hk
      simp [holders, hw]
    · have := ih (by omega)
      simp only [holders]
      omega

theorem copy_ctor_m_ptr (s : State) (this other : Nat) :
    (copy_ctor s this other).m_ptr = Function.update s.m_ptr this (s.m_ptr other) := by
  simp [copy_ctor, InternalAddRef_m_ptr]

theorem copy_ctor_m_rc (s : State) (this other : Nat) (o : Ptr) :
    (copy_ctor s this other).heap.m_rc o =
      if o = s.m_ptr other ∧ o ≠ nullptr then s.heap.m_rc o + 1 else s.heap.m_rc o := by
  simp [copy_ctor, InternalAddRef_m_rc]

theorem copy_ctor_deleted (s : State) (this other : Nat) :
    (copy_ctor s this other).heap.deleted = s.heap.deleted := by
  simp [copy_ctor, InternalAddRef_deleted]

theorem CopyTo_var_m_ptr (s : State) (this out : Nat) :
    (CopyTo s this (Loc.var out)).m_ptr = s.m_ptr := by
  simp [CopyTo, store, InternalAddRef_m_ptr]

theorem CopyTo_m_rc (s : State) (this : Nat) (loc : Loc) (o : Ptr) :
    (CopyTo s this loc).heap.m_rc o =
      if o = s.m_ptr this ∧ o ≠ nullptr then s.heap.m_rc o + 1 else s.heap.m_rc o := by
  cases loc <;> simp [CopyTo, store, InternalAddRef_m_rc]

theorem CopyTo_deleted (s : State) (this : Nat) (loc : Loc) :
    (CopyTo s this loc).heap.deleted = s.heap.deleted := by
  cases loc <;> simp [CopyTo, store, InternalAddRef_deleted]

/-! ## Ownership accounting -/

theorem step_accounted (w : World) (op : Op) (hacc : Accounted w) (hv : op.Valid w) :
    Accounted (step w op) := by
  intro o ho
  have h0 := hacc o ho
  cases op with
  | default_ctor =>
    have f1 := holders_update_ge w.st.m_ptr w.n w.n nullptr o (le_refl _)
    simp only [step, default_ctor, holders, Function.update_same]
    simp only [Ptr] at *
    split_ifs <;> omega
  | copy_ctor other =>
    have f1 := holders_update_ge w.st.m_ptr w.n w.n (w.st.m_ptr other) o (le_refl _)
    simp only [step, copy_ctor_m_ptr, copy_ctor_m_rc, holders, Function.update_same]
    simp only [Ptr] at *
    split_ifs <;> omega
  | move_ctor other =>
    have hlt : other < w.n := hv
    have hne : other ≠ w.n := by omega
    have f1 := holders_update_lt (Function.update w.st.m_ptr w.n (w.st.m_ptr other)) w.n other
      nullptr o hlt
    have f2 := holders_update_ge w.st.m_ptr w.n w.n (w.st.m_ptr other) o (le_refl _)
    rw [Function.update_noteq hne] at f1
    simp only [step, move_ctor, holders, Function.update_noteq hne.symm, Function.update_same]
    simp only [Ptr] at *
    split_ifs at f1 ⊢ <;> omega
  | assign_copy this other =>
    have f1 := holders_update_lt w.st.m_ptr w.n this (w.st.m_ptr other) o hv.1
    simp only [step, assign_copy, InternalCopy_m_ptr, InternalCopy_m_rc]
    simp only [Ptr] at *
    split_ifs at f1 ⊢ <;> omega
  | assign_move this other =>
    by_cases he : w.st.m_ptr this = w.st.m_ptr other
    · simp only [step, assign_move, InternalMove_of_eq _ _ _ he]
      exact h0
    · have hne : other ≠ this := fun e => he (by rw [e])
      have f1 := holders_update_lt (Function.update w.st.m_ptr this (w.st.m_ptr other)) w.n
        other nullptr o hv.2
      have f2 := holders_update_lt w.st.m_ptr w.n this (w.st.m_ptr other) o hv.1
      rw [Function.update_noteq hne] at f1
      simp only [step, assign_move, InternalMove_m_ptr _ _ _ he, InternalMove_m_rc]
      simp only [Ptr] at *
      split_ifs at f1 f2 ⊢ <;> omega
  | assign_nullptr this =>
    have hlt : this < w.n := hv
    have f1 := holders_update_lt w.st.m_ptr w.n this nullptr o hlt
    simp only [step, assign_nullptr, InternalRelease_m_ptr, InternalRelease_m_rc]
    simp only [Ptr] at *
    split_ifs at f1 ⊢ <;> omega
  | dtor this =>
    have hlt : this < w.n := hv
    have f1 := holders_update_lt w.st.m_ptr w.n this nullptr o hlt
    simp only [step, dtor, InternalRelease_m_ptr, InternalRelease_m_rc]
    simp only [Ptr] at *
    split_ifs at f1 ⊢ <;> omega
  | detach obj =>
    have hlt : obj < w.n := hv
    have f1 := holders_update_lt w.st.m_ptr w.n obj nullptr o hlt
    simp only [step, detach, Function.update_apply]
    simp only [Ptr] at *
    split_ifs at f1 ⊢ <;> first | omega | (subst_vars; omega)
  | attach obj p =>
    have f1 := holders_update_lt w.st.m_ptr w.n obj p o hv.1
    have f2 := hv.2
    simp only [step, attach_m_ptr, attach_m_rc, Function.update_apply]
    simp only [Ptr] at *
    split_ifs at f1 ⊢ <;> first | omega | (subst_vars; omega)
  | swap left right =>
    have f1 := holders_update_lt (Function.update w.st.m_ptr left (w.st.m_ptr right)) w.n
      right (w.st.m_ptr left) o hv.2
    have f2 := holders_update_lt w.st.m_ptr w.n left (w.st.m_ptr right) o hv.1
    have f3 : Function.update w.st.m_ptr left (w.st.m_ptr right) right = w.st.m_ptr right := by
      by_cases e : right = left
      · rw [e, Function.update_same]
      · rw [Function.update_noteq e]
    rw [f3] at f1
    simp only [step, swap]
    simp only [Ptr] at *
    split_ifs at f1 f2 ⊢ <;> omega
  | CopyTo this out =>
    simp only [step, CopyTo_var_m_ptr, CopyTo_m_rc, Function.update_apply]
    simp only [Ptr] at *
    split_ifs <;> first | omega | (subst_vars; omega)
  | CopyFrom this other =>
    have f1 := holders_update_lt w.st.m_ptr w.n this other o hv.1
    simp only [step, CopyFrom, InternalCopy_m_ptr, InternalCopy_m_rc]
    simp only [Ptr] at *
    split_ifs at f1 ⊢ <;> omega

/-- What one operation does to one object: the object runs `delete this`
exactly when its count goes from one to zero, the count drops by at most one,
and an object that has been destroyed with count zero is not touched. -/
theorem step_object (w : World) (op : Op) (hacc : Accounted w) (hv : op.Valid w)
    (o : Ptr) (ho : o ≠ nullptr) :
    (step w op).st.heap.deleted o =
        w.st.heap.deleted o +
          (if w.st.heap.m_rc o = 1 ∧ (step w op).st.heap.m_rc o = 0 then 1 else 0) ∧
    w.st.heap.m_rc o - 1 ≤ (step w op).st.heap.m_rc o ∧
    (w.st.heap.m_rc o = 0 → 1 ≤ w.st.heap.deleted o → (step w op).st.heap.m_rc o = 0) := by
  have h0 := hacc o ho
  cases op with
  | default_ctor =>
    simp only [step, default_ctor]
    simp only [Ptr] at *
    refine ⟨?_, ?_, ?_⟩ <;> (try split_ifs) <;> omega
  | copy_ctor other =>
    have hlt : other < w.n := hv
    have g1 : w.st.m_ptr other = o → 0 < holders w.st.m_ptr w.n o := holders_pos _ _ _ _ hlt
    simp only [step, copy_ctor_m_rc, copy_ctor_deleted]
    simp only [Ptr] at *
    refine ⟨?_, ?_, ?_⟩ <;> (try split_ifs) <;> omega
  | move_ctor other =>
    simp only [step, move_ctor]
    simp only [Ptr] at *
    refine ⟨?_, ?_, ?_⟩ <;> (try split_ifs) <;> omega
  | assign_copy this other =>
    have g1 : w.st.m_ptr this = o → 0 < holders w.st.m_ptr w.n o := holders_pos _ _ _ _ hv.1
    have g2 : w.st.m_ptr other = o → 0 < holders w.st.m_ptr w.n o := holders_pos _ _ _ _ hv.2
    simp only [step, assign_copy, InternalCopy_m_rc, InternalCopy_deleted]
    simp only [Ptr] at *
    refine ⟨?_, ?_, ?_⟩ <;> (try split_ifs) <;> omega
  | assign_move this other =>
    have g1 : w.st.m_ptr this = o → 0 < holders w.st.m_ptr w.n o := holders_pos _ _ _ _ hv.1
    simp only [step, assign_move, InternalMove_m_rc, InternalMove_deleted]
    simp only [Ptr] at *
    refine ⟨?_, ?_, ?_⟩ <;> (try split_ifs) <;> omega
  | assign_nullptr this =>
    have hlt : this < w.n := hv
    have g1 : w.st.m_ptr this = o → 0 < holders w.st.m_ptr w.n o := holders_pos _ _ _ _ hlt
    simp only [step, assign_nullptr, InternalRelease_m_rc, InternalRelease_deleted]
    simp only [Ptr] at *
    refine ⟨?_, ?_, ?_⟩ <;> (try split_ifs) <;> omega
  | dtor this =>
    have hlt : this < w.n := hv
    have g1 : w.st.m_ptr this = o → 0 < holders w.st.m_ptr w.n o := holders_pos _ _ _ _ hlt
    simp only [step, dtor, InternalRelease_m_rc, InternalRelease_deleted]
    simp only [Ptr] at *
    refine ⟨?_, ?_, ?_⟩ <;> (try split_ifs) <;> omega
  | detach obj =>
    simp only [step, detach]
    simp only [Ptr] at *
    refine ⟨?_, ?_, ?_⟩ <;> (try split_ifs) <;> omega
  | attach obj p =>
    have g1 : w.st.m_ptr obj = o → 0 < holders w.st.m_ptr w.n o := holders_pos _ _ _ _ hv.1
    simp only [step, attach_m_rc, attach_deleted]
    simp only [Ptr] at *
    refine ⟨?_, ?_, ?_⟩ <;> (try split_ifs) <;> omega
  | swap left right =>
    simp only [step, swap]
    simp only [Ptr] at *
    refine ⟨?_, ?_, ?_⟩ <;> (try split_ifs) <;> omega
  | CopyTo this out =>
    have hlt : this < w.n := hv
    have g1 : w.st.m_ptr this = o → 0 < holders w.st.m_ptr w.n o := holders_pos _ _ _ _ hlt
    simp only [step, CopyTo_m_rc, CopyTo_deleted]
    simp only [Ptr] at *
    refine ⟨?_, ?_, ?_⟩ <;> (try split_ifs) <;> omega
  | CopyFrom this other =>
    have g1 : w.st.m_ptr this = o → 0 < holders w.st.m_ptr w.n o := holders_pos _ _ _ _ hv.1
    have g2 : o = other → w.st.heap.deleted o = 0 := by
      intro e
      subst e
      rcases hv.2 with h | h
      · exact absurd h ho
      · exact h
    simp only [step, CopyFrom, InternalCopy_m_rc, InternalCopy_deleted]
    simp only [Ptr] at *
    refine ⟨?_, ?_, ?_⟩ <;> (try split_ifs) <;> omega

theorem accounted_zero (w : World) (hacc : Accounted w) (o : Ptr) (ho : o ≠ nullptr)
    (hz : w.st.heap.m_rc o = 0) :
    (∀ i, i < w.n → w.st.m_ptr i ≠ o) ∧ w.owned o = 0 := by
  have h0 := hacc o ho
  constructor
  · intro i hi e
    have := holders_pos w.st.m_ptr w.n i o hi e
    omega
  · omega

theorem run_accounted (w : World) (ops : List Op) (hacc : Accounted w)
    (hv : ValidRun w ops) : Accounted (run w ops) := by
  induction ops generalizing w with
  | nil => exact hacc
  | cons op ops ih => exact ih (step w op) (step_accounted w op hacc hv.1) hv.2

theorem step_destroyedOnce (w : World) (op : Op) (hacc : Accounted w) (hv : op.Valid w)
    (h : DestroyedOnce w) : DestroyedOnce (step w op) := by
  intro o ho
  have h1 := h o ho
  have h2 := step_object w op hacc hv o ho
  obtain ⟨a, _, c⟩ := h2
  rw [a]
  split_ifs <;> omega

theorem run_destroyedOnce (w : World) (ops : List Op) (hacc : Accounted w)
    (hv : ValidRun w ops) (h : DestroyedOnce w) : DestroyedOnce (run w ops) := by
  induction ops generalizing w with
  | nil => exact h
  | cons op ops ih =>
    exact ih (step w op) (step_accounted w op hacc hv.1) hv.2
      (step_destroyedOnce w op hacc hv.1 h)

theorem step_lifecycle (w : World) (op : Op) (hacc : Accounted w) (hv : op.Valid w)
    (o : Ptr) (ho : o ≠ nullptr) (h : Lifecycle w o) : Lifecycle (step w op) o := by
  have h2 := step_object w op hacc hv o ho
  have h3 := step_accounted w op hacc hv o ho
  obtain ⟨a, b, c⟩ := h2
  unfold Lifecycle at h ⊢
  rw [a]
  split_ifs <;> omega

theorem run_lifecycle (w : World) (ops : List Op) (hacc : Accounted w)
    (hv : ValidRun w ops) (o : Ptr) (ho : o ≠ nullptr) (h : Lifecycle w o) :
    Lifecycle (run w ops) o := by
  induction ops generalizing w with
  | nil => exact h
  | cons op ops ih =>
    exact ih (step w op) (step_accounted w op hacc hv.1) hv.2
      (step_lifecycle w op hacc hv.1 o ho h)

theorem demoWorld_accounted : Accounted demoWorld := by
  intro o _
  have hh : holders demo.m_ptr 3 o =
      (if 7 = o then 1 else 0) + (if 9 = o then 1 else 0) + (if 9 = o then 1 else 0) := by
    simp [holders, demo]
  have hr : demo.heap.m_rc o = if o = 7 then 1 else if o = 9 then 2 else 0 := rfl
  show demo.heap.m_rc o = ((holders demo.m_ptr 3 o : Nat) : Int) + ((0 : Nat) : Int)
  rw [hh, hr]
  simp only [Ptr] at *
  split_ifs <;> omega

theorem scenario_valid : ValidRun demoWorld scenario := by
  refine ⟨?_, ?_, ?_, ?_, trivial⟩ <;> decide

/-- Witness for C2, on `demo`: copying wrapper 0 (object 7, count 1) into a new
wrapper 5, and copying the empty wrapper 3. -/
theorem copy_ctor_effect_witness :
    demo.m_ptr 0 ≠ nullptr ∧
    (copy_ctor demo 5 0).heap.m_rc (demo.m_ptr 0) = demo.heap.m_rc (demo.m_ptr 0) + 1 ∧
    operator_eq (copy_ctor demo 5 0) 5 0 = true ∧
    demo.m_ptr 3 = nullptr ∧
    (copy_ctor demo 5 3).m_ptr 5 = nullptr ∧
    (copy_ctor demo 5 3).heap = demo.heap :=
  have h := (copy_ctor_effect demo 5 0).1 (by decide)
  have e := (copy_ctor_effect demo 5 3).2 (by decide)
  ⟨by decide, h.1, h.2.2.2.2.2, by decide, e.1, e.2.2.1⟩

/-- Witness for C3, on `demo`: assigning wrapper 1 (object 9) to wrapper 0
(object 7), and wrapper 2 to wrapper 1 (both on object 9). -/
theorem assign_copy_effect_witness :
    demo.m_ptr 0 ≠ demo.m_ptr 1 ∧
    (assign_copy demo 0 1).m_ptr 0 = demo.m_ptr 1 ∧
    (assign_copy demo 0 1).heap.m_rc (demo.m_ptr 0) = demo.heap.m_rc (demo.m_ptr 0) - 1 ∧
    (assign_copy demo 0 1).heap.m_rc (demo.m_ptr 1) = demo.heap.m_rc (demo.m_ptr 1) + 1 ∧
    demo.m_ptr 1 = demo.m_ptr 2 ∧
    assign_copy demo 1 2 = demo :=
  have h := assign_copy_effect demo 0 1
  have d := h.2.2.2.1 (by decide)
  ⟨by decide, h.1, d.1 (by decide), d.2.1 (by decide), by decide,
    (assign_copy_effect demo 1 2).2.2.2.2 (by decide)⟩

/-- Witness for C4, on `demo`: moving wrapper 0 (object 7) into a new wrapper 5. -/
theorem move_ctor_effect_witness :
    (5 : Nat) ≠ 0 ∧
    (move_ctor demo 5 0).heap = demo.heap ∧
    (move_ctor demo 5 0).m_ptr 0 = nullptr ∧
    (move_ctor demo 5 0).m_ptr 5 = demo.m_ptr 0 :=
  have h := move_ctor_effect demo 5 0 (by decide)
  ⟨by decide, h.1, h.2.1, h.2.2.2.1⟩

/-- Witness for C5, on `demo`: move assignment of wrapper 1 (object 9) to
wrapper 0 (object 7). -/
theorem assign_move_effect_witness :
    demo.m_ptr 1 ≠ nullptr ∧ demo.m_ptr 0 ≠ demo.m_ptr 1 ∧
    (assign_move demo 0 1).m_ptr 1 = nullptr ∧
    (assign_move demo 0 1).m_ptr 0 = demo.m_ptr 1 ∧
    (assign_move demo 0 1).heap.m_rc (demo.m_ptr 1) = demo.heap.m_rc (demo.m_ptr 1) ∧
    (assign_move demo 0 1).heap.m_rc (demo.m_ptr 0) = demo.heap.m_rc (demo.m_ptr 0) - 1 :=
  have h := assign_move_effect demo 0 1 (by decide) (by decide)
  ⟨by decide, by decide, h.1, h.2.2.1, h.2.2.2.2.1, h.2.2.2.2.2.1 (by decide)⟩

/-- Counterexample to C6 as stated, on `demo`: wrappers 1 and 2 both hold the
raw reference 9 to the same object (count 2).  After `w1 = std::move(w2)` the
count of object 9 is still 2, not 1, and wrapper 2 is not empty. -/
theorem assign_move_same_target_counterexample :
    demo.m_ptr 1 = demo.m_ptr 2 ∧ demo.m_ptr 1 = 9 ∧
    demo.heap.m_rc 9 = 2 ∧
    (assign_move demo 1 2).heap.m_rc 9 = 2 ∧
    (assign_move demo 1 2).heap.m_rc 9 ≠ demo.heap.m_rc 9 - 1 ∧
    (assign_move demo 1 2).m_ptr 2 ≠ nullptr ∧
    operator_bool (assign_move demo 1 2) 2 = true := by
  decide

/-- Witness for C6 as amended, on `demo`: wrappers 1 and 2 hold the same raw
reference 9. -/
theorem assign_move_same_target_witness :
    demo.m_ptr 1 = demo.m_ptr 2 ∧ assign_move demo 1 2 = demo ∧
    (assign_move demo 1 2).m_ptr 2 = demo.m_ptr 2 :=
  have h := assign_move_same_target demo 1 2 (by decide)
  ⟨by decide, h.1, h.2.2.2.1⟩

/-- Witness for C7, on `demo`: clearing wrapper 0 (object 7) and the empty
wrapper 3. -/
theorem clear_effect_witness :
    demo.m_ptr 0 ≠ nullptr ∧
    (assign_nullptr demo 0).heap.m_rc (demo.m_ptr 0) = demo.heap.m_rc (demo.m_ptr 0) - 1 ∧
    (assign_nullptr demo 0).m_ptr 0 = nullptr ∧
    demo.m_ptr 3 = nullptr ∧
    assign_nullptr demo 3 = demo :=
  have h := (clear_effect demo 0).2.1 (by decide)
  ⟨by decide, h.1, h.2.2.1, by decide, (clear_effect demo 3).2.2.1 (by decide)⟩

/-- Witness for C8, on `demo`: detaching wrapper 1 (object 9); wrapper 2 is
untouched. -/
theorem detach_effect_witness :
    (detach demo 1).2 = 9 ∧ (detach demo 1).1.m_ptr 1 = nullptr ∧
    (detach demo 1).1.heap = demo.heap ∧ (detach demo 1).1.m_ptr 2 = demo.m_ptr 2 :=
  have h := detach_effect demo 1
  ⟨h.1.trans (by decide), h.2.2.1, h.2.2.2.2.1, h.2.2.2.2.2 2 (by decide)⟩

/-- Witness for C9, on `demo`: attaching object 9 to wrapper 0 (object 7). -/
theorem attach_effect_witness :
    demo.m_ptr 0 ≠ nullptr ∧
    (attach demo 0 9).m_ptr 0 = 9 ∧
    (attach demo 0 9).heap.m_rc 9 ≤ demo.heap.m_rc 9 ∧
    (attach demo 0 9).heap.m_rc (demo.m_ptr 0) = demo.heap.m_rc (demo.m_ptr 0) - 1 :=
  have h := attach_effect demo 0 9
  ⟨by decide, h.1, h.2.1, h.2.2.1 (by decide)⟩

/-- Counterexample to C10 as stated, on `demo`: wrappers 1 and 2 both hold
object 9 (count 2).  After `r = detach(w1); attach(w2, r)` the count of object
9 is 1: it has changed. -/
theorem detach_attach_counterexample :
    demo.m_ptr 1 ≠ nullptr ∧ (detach demo 1).2 = 9 ∧
    demo.heap.m_rc 9 = 2 ∧
    (detach_attach demo 1 2).heap.m_rc 9 = 1 ∧
    (detach_attach demo 1 2).heap.m_rc 9 ≠ demo.heap.m_rc 9 := by
  decide

/-- Witness for C10 as amended, on `demo`: detaching wrapper 0 (object 7) and
attaching to the empty wrapper 3. -/
theorem detach_attach_effect_witness :
    demo.m_ptr 0 ≠ nullptr ∧
    (detach_attach demo 0 3).m_ptr 3 = demo.m_ptr 0 ∧
    operator_bool (detach_attach demo 0 3) 3 = true ∧
    (detach_attach demo 0 3).heap.m_rc (demo.m_ptr 0) = demo.heap.m_rc (demo.m_ptr 0) :=
  have h := detach_attach_effect demo 0 3 (by decide)
  ⟨by decide, h.2.1, h.2.2.1, h.2.2.2.1 (Or.inr (by decide))⟩

/-! ## Swap, comparison, and the raw slot -/

theorem swap_m_ptr (s : State) (left right : Nat) (w : Nat) :
    (swap s left right).m_ptr w =
      if w = right then s.m_ptr left else if w = left then s.m_ptr right else s.m_ptr w := by
  simp only [swap, Function.update_apply]

theorem State_ext (s t : State) (h1 : s.heap = t.heap) (h2 : ∀ w, s.m_ptr w = t.m_ptr w)
    (h3 : s.var = t.var) : s = t := by
  cases s
  cases t
  simp only [State.mk.injEq]
  exact ⟨h1, funext h2, h3⟩

/-- C11: `swap(left, right)` leaves `left` holding what `right` held and
`right` holding what `left` held (either may be empty, and the two may be the
same wrapper), leaves every other wrapper as it was, and changes no object: no
count changes and nothing is destroyed. -/
theorem swap_effect (s : State) (left right : Nat) :
    (swap s left right).m_ptr left = s.m_ptr right ∧
    (swap s left right).m_ptr right = s.m_ptr left ∧
    (swap s left right).heap = s.heap ∧
    (∀ o, (swap s left right).heap.m_rc o = s.heap.m_rc o) ∧
    (∀ w, w ≠ left → w ≠ right → (swap s left right).m_ptr w = s.m_ptr w) := by
  refine ⟨?_, ?_, rfl, fun _ => rfl, ?_⟩
  · rw [swap_m_ptr]
    by_cases h : left = right
    · rw [if_pos h, h]
    · rw [if_neg h, if_pos rfl]
  · rw [swap_m_ptr, if_pos rfl]
  · intro w h1 h2
    rw [swap_m_ptr, if_neg h2, if_neg h1]

/-- C15: `left == right` holds iff the two raw references are identical, so
two empty wrappers are equal and wrappers on two distinct objects are not; and
`left != right` is the negation of `left == right`. -/
theorem operator_eq_iff (s : State) (left right : Nat) :
    (operator_eq s left right = true ↔ get s left = get s right) ∧
    (s.m_ptr left = nullptr → s.m_ptr right = nullptr → operator_eq s left right = true) ∧
    (s.m_ptr left ≠ s.m_ptr right → operator_eq s left right = false) ∧
    operator_ne s left right = !(operator_eq s left right) ∧
    (operator_ne s left right = true ↔ ¬ (operator_eq s left right = true)) := by
  refine ⟨?_, ?_, ?_, rfl, ?_⟩
  · simp [operator_eq]
  · intro h1 h2
    simp [operator_eq, get, h1, h2]
  · intro h
    simp [operator_eq, get, h]
  · simp [operator_ne]

/-- C16: `operator<` is a strict weak order on the raw references: it is
irreflexive and transitive, and incomparability (neither `a < b` nor `b < a`)
is transitive and is the same as `a == b`. -/
theorem operator_lt_strict_weak (s : State) (a b c : Nat) :
    operator_lt s a a = false ∧
    (operator_lt s a b = true → operator_lt s b c = true → operator_lt s a c = true) ∧
    ((operator_lt s a b = false ∧ operator_lt s b a = false) →
      (operator_lt s b c = false ∧ operator_lt s c b = false) →
      (operator_lt s a c = false ∧ operator_lt s c a = false)) ∧
    ((operator_lt s a b = false ∧ operator_lt s b a = false) ↔ operator_eq s a b = true) := by
  simp only [operator_lt, operator_eq, decide_eq_true_eq, decide_eq_false_iff_not,
    beq_iff_eq]
  simp only [Ptr] at *
  refine ⟨by omega, by omega, by omega, by omega⟩

/-- C18: the derived comparisons agree with `operator<`: `a > b` iff `b < a`,
`a <= b` iff not `b < a`, `a >= b` iff not `a < b`.  The order is total on
distinct targets: when `a != b`, exactly one of `a < b` and `a > b` holds; and
if `a < b` then `b > a`, `b >= a` and not `b <= a`. -/
theorem comparison_consistent (s : State) (a b : Nat) :
    (operator_gt s a b = true ↔ operator_lt s b a = true) ∧
    (operator_le s a b = true ↔ ¬ (operator_lt s b a = true)) ∧
    (operator_ge s a b = true ↔ ¬ (operator_lt s a b = true)) ∧
    (operator_ne s a b = true →
      (operator_lt s a b = true ∨ operator_gt s a b = true) ∧
      ¬ (operator_lt s a b = true ∧ operator_gt s a b = true)) ∧
    (operator_lt s a b = true →
      operator_gt s b a = true ∧ operator_ge s b a = true ∧ operator_le s b a = false) := by
  have hx : ∀ x y : Nat, x ≠ y → (x < y ∨ y < x) ∧ ¬ (x < y ∧ y < x) := by
    intro x y h
    omega
  have hy : ∀ x y : Nat, x < y → ¬ (y < x) := by
    intro x y h
    omega
  refine ⟨Iff.rfl, ?_, ?_, ?_, ?_⟩
  · simp [operator_le]
  · simp [operator_ge]
  · intro h
    have h1 : get s a ≠ get s b := by
      simpa [operator_ne, operator_eq] using h
    simpa [operator_gt, operator_lt] using hx _ _ h1
  · intro h
    have h1 : get s a < get s b := by
      simpa [operator_lt] using h
    have h2 := hy _ _ h1
    simp [operator_gt, operator_ge, operator_le, operator_lt, h1, h2]

/-- C20: `swap` is an involution and is symmetric: swapping twice restores the
state, `swap(left, right)` and `swap(right, left)` give the same state, and
`swap(left, left)` changes nothing. -/
theorem swap_involution (s : State) (left right : Nat) :
    swap (swap s left right) left right = s ∧
    swap s left right = swap s right left ∧
    swap s left left = s := by
  refine ⟨?_, ?_, ?_⟩
  · refine State_ext _ _ rfl (fun w => ?_) rfl
    simp only [swap_m_ptr]
    split_ifs <;> simp_all
  · refine State_ext _ _ rfl (fun w => ?_) rfl
    simp only [swap_m_ptr]
    split_ifs <;> simp_all
  · refine State_ext _ _ rfl (fun w => ?_) rfl
    simp only [swap_m_ptr]
    split_ifs <;> simp_all

/-! ## Conversion and raw copies -/

theorem CopyTo_m_ptr_this (s : State) (this : Nat) (other : Loc) :
    (CopyTo s this other).m_ptr this = s.m_ptr this := by
  cases other with
  | slot w =>
    by_cases h : this = w
    · subst h
      simp [CopyTo, store, InternalAddRef_m_ptr]
    · simp [CopyTo, store, InternalAddRef_m_ptr, Function.update_noteq h]
  | var v => simp [CopyTo, store, InternalAddRef_m_ptr]

theorem load_CopyTo (s : State) (this : Nat) (other : Loc) :
    load (CopyTo s this other) other = s.m_ptr this := by
  cases other <;> simp [CopyTo, store, load, InternalAddRef_m_ptr]

/-- C12: for a non-empty wrapper `this`, `As` returns a wrapper (`ret`, a new
one) that is non-empty iff the target supports the requested interface; a
failing query, whether it stores `nullptr` or nothing, yields an empty wrapper
and leaves every object as it was; on success the result holds the target and
the count of the target has gone up by exactly one (the reference the query
hands out).  In both cases `this` still holds the same target. -/
theorem As_effect (q : Query) (s : State) (this ret riid : Nat)
    (hne : s.m_ptr this ≠ nullptr) (hret : ret ≠ this) :
    ∃ t, As q s this ret riid = some t ∧
      (operator_bool t ret = true ↔ q.supports (s.m_ptr this) riid = true) ∧
      t.m_ptr this = s.m_ptr this ∧
      (q.supports (s.m_ptr this) riid = true →
        t.m_ptr ret = s.m_ptr this ∧
        t.heap.m_rc (s.m_ptr this) = s.heap.m_rc (s.m_ptr this) + 1 ∧
        (∀ o, o ≠ s.m_ptr this → t.heap.m_rc o = s.heap.m_rc o)) ∧
      (q.supports (s.m_ptr this) riid = false →
        t.m_ptr ret = nullptr ∧ t.heap = s.heap) := by
  have h1 : (default_ctor s ret).m_ptr this = s.m_ptr this := by
    simp [default_ctor, Function.update_noteq hret.symm]
  have h2 : (default_ctor s ret).m_ptr ret = nullptr := by
    simp [default_ctor]
  have h3 : set (default_ctor s ret) ret = some (Loc.slot ret) := by
    simp [set, h2]
  have h4 : (default_ctor s ret).heap = s.heap := rfl
  refine ⟨(QueryInterface q (default_ctor s ret) (s.m_ptr this) riid (Loc.slot ret)).1, ?_, ?_⟩
  · simp only [As, h1, hne, if_false, h3]
  · by_cases hs : q.supports (s.m_ptr this) riid = true
    · have e : (QueryInterface q (default_ctor s ret) (s.m_ptr this) riid (Loc.slot ret)).1 =
          { store (default_ctor s ret) (Loc.slot ret) (s.m_ptr this) with
            heap := AddRef s.heap (s.m_ptr this) } := by
        simp [QueryInterface, hs, store, default_ctor]
      rw [e]
      refine ⟨?_, ?_, ?_, ?_⟩
      · simp [operator_bool, store, hs, hne]
      · simp [store, default_ctor, Function.update_noteq hret.symm]
      · intro _
        refine ⟨by simp [store], by simp [AddRef_m_rc], ?_⟩
        intro o ho
        simp [AddRef_m_rc, ho]
      · intro hf
        rw [hs] at hf
        exact absurd hf (by decide)
    · have hs2 : q.supports (s.m_ptr this) riid = false := by
        simpa using hs
      have e : (QueryInterface q (default_ctor s ret) (s.m_ptr this) riid (Loc.slot ret)).1 =
          default_ctor s ret := by
        by_cases hc : q.clears (s.m_ptr this) riid = true
        · simp [QueryInterface, hs2, hc, store, default_ctor]
        · simp [QueryInterface, hs2, hc]
      rw [e]
      refine ⟨?_, h1, ?_, ?_⟩
      · simp [operator_bool, h2, hs2]
      · intro ht
        exact absurd ht hs
      · intro _
        exact ⟨h2, h4⟩

/-- C13: `CopyTo(other)` stores the raw reference of `this` into `*other` and
leaves the target of `this` unchanged.  For a non-empty `this` the count of
the target goes up by exactly one and no other count changes; for an empty
`this` the value stored is `nullptr` and no object changes.  In particular,
for an empty wrapper `w2`, `CopyTo(set(w2))` makes `w2 == this`. -/
theorem CopyTo_effect (s : State) (this : Nat) (other : Loc) :
    load (CopyTo s this other) other = s.m_ptr this ∧
    (CopyTo s this other).m_ptr this = s.m_ptr this ∧
    (s.m_ptr this ≠ nullptr →
      (CopyTo s this other).heap.m_rc (s.m_ptr this) = s.heap.m_rc (s.m_ptr this) + 1 ∧
      (∀ o, o ≠ s.m_ptr this → (CopyTo s this other).heap.m_rc o = s.heap.m_rc o)) ∧
    (s.m_ptr this = nullptr →
      load (CopyTo s this other) other = nullptr ∧
      (CopyTo s this other).heap = s.heap) ∧
    (∀ w2, s.m_ptr w2 = nullptr →
      ∃ ppv, set s w2 = some ppv ∧ operator_eq (CopyTo s this ppv) w2 this = true) := by
  refine ⟨load_CopyTo s this other, CopyTo_m_ptr_this s this other, ?_, ?_, ?_⟩
  · intro h
    refine ⟨by simp [CopyTo_m_rc, h], ?_⟩
    intro o ho
    simp [CopyTo_m_rc, ho]
  · intro h
    refine ⟨by rw [load_CopyTo, h], ?_⟩
    cases other <;> simp [CopyTo, store, InternalAddRef, h]
  · intro w2 h
    refine ⟨Loc.slot w2, by simp [set, h], ?_⟩
    have a := load_CopyTo s this (Loc.slot w2)
    have b := CopyTo_m_ptr_this s this (Loc.slot w2)
    simp only [load] at a
    simp [operator_eq, get, a, b]

/-- C17: the assertion of `set(obj)` holds iff `obj` is empty; on an empty
wrapper `set` returns the storage slot of `obj` itself, and storing a raw
reference `r` through the returned slot makes `obj` hold `r` and changes no
object (no count is touched). -/
theorem set_effect (s : State) (obj : Nat) :
    ((set s obj).isSome = true ↔ s.m_ptr obj = nullptr) ∧
    (s.m_ptr obj = nullptr → set s obj = some (Loc.slot obj)) ∧
    (∀ ppv r, set s obj = some ppv →
      (store s ppv r).m_ptr obj = r ∧
      get (store s ppv r) obj = r ∧
      load (store s ppv r) ppv = r ∧
      (store s ppv r).heap = s.heap) := by
  refine ⟨?_, ?_, ?_⟩
  · by_cases h : s.m_ptr obj = nullptr <;> simp [set, h]
  · intro h
    simp [set, h]
  · intro ppv r h
    by_cases h0 : s.m_ptr obj = nullptr
    · have e : ppv = Loc.slot obj := by
        simp [set, h0] at h
        exact h.symm
      subst e
      simp [store, get, load]
    · simp [set, h0] at h

/-- C19: `attach` performs no identity check.  For a non-empty wrapper `obj`
holding `O`, `attach(obj, get(obj))` leaves `obj` holding `O` and lowers the
count of `O` by exactly one; when the count of `O` was 1, the wrapper ends
non-empty while the count of `O` is zero and `O` has run `delete this`. -/
theorem attach_self_effect (s : State) (obj : Nat) (hne : s.m_ptr obj ≠ nullptr) :
    (attach s obj (get s obj)).m_ptr obj = s.m_ptr obj ∧
    operator_bool (attach s obj (get s obj)) obj = true ∧
    (attach s obj (get s obj)).heap.m_rc (s.m_ptr obj) = s.heap.m_rc (s.m_ptr obj) - 1 ∧
    (∀ o, o ≠ s.m_ptr obj → (attach s obj (get s obj)).heap.m_rc o = s.heap.m_rc o) ∧
    (s.heap.m_rc (s.m_ptr obj) = 1 →
      (attach s obj (get s obj)).heap.m_rc (s.m_ptr obj) = 0 ∧
      (attach s obj (get s obj)).heap.deleted (s.m_ptr obj)
        = s.heap.deleted (s.m_ptr obj) + 1) := by
  have hm : (attach s obj (get s obj)).m_ptr obj = s.m_ptr obj := by
    simp [attach_m_ptr, get]
  refine ⟨hm, by simp [operator_bool, hm, hne], by simp [attach_m_rc, hne], ?_, ?_⟩
  · intro o ho
    simp [attach_m_rc, ho]
  · intro h1
    refine ⟨by simp [attach_m_rc, hne, h1], by simp [attach_deleted, hne, h1]⟩

/-- Witness for C11, on `demo`: swapping wrapper 0 (object 7) and wrapper 1
(object 9); wrapper 2 is untouched. -/
theorem swap_effect_witness :
    (swap demo 0 1).m_ptr 0 = demo.m_ptr 1 ∧ (swap demo 0 1).m_ptr 1 = demo.m_ptr 0 ∧
    (swap demo 0 1).heap = demo.heap ∧ (swap demo 0 1).m_ptr 2 = demo.m_ptr 2 :=
  have h := swap_effect demo 0 1
  ⟨h.1, h.2.1, h.2.2.1, h.2.2.2.2 2 (by decide) (by decide)⟩

/-- Witness for C12, on `demo` with `demoQuery`: wrapper 0 (object 7) queried
for interface 2, which is implemented, and for interface 3, which is not. -/
theorem As_effect_witness :
    demo.m_ptr 0 ≠ nullptr ∧
    (∃ t, As demoQuery demo 0 5 2 = some t ∧ operator_bool t 5 = true ∧
      t.m_ptr 0 = demo.m_ptr 0) ∧
    (∃ t, As demoQuery demo 0 5 3 = some t ∧ t.m_ptr 5 = nullptr ∧ t.heap = demo.heap ∧
      t.m_ptr 0 = demo.m_ptr 0) := by
  refine ⟨by decide, ?_, ?_⟩
  · obtain ⟨t, h1, h2, h3, _, _⟩ := As_effect demoQuery demo 0 5 2 (by decide) (by decide)
    exact ⟨t, h1, h2.mpr (by decide), h3⟩
  · obtain ⟨t, h1, _, h3, _, h5⟩ := As_effect demoQuery demo 0 5 3 (by decide) (by decide)
    exact ⟨t, h1, (h5 (by decide)).1, (h5 (by decide)).2, h3⟩

/-- Witness for C13, on `demo`: wrapper 0 (object 7) copied into the raw
variable 0 of the caller and into the slot of the empty wrapper 3. -/
theorem CopyTo_effect_witness :
    demo.m_ptr 0 ≠ nullptr ∧
    load (CopyTo demo 0 (Loc.var 0)) (Loc.var 0) = demo.m_ptr 0 ∧
    (CopyTo demo 0 (Loc.var 0)).heap.m_rc (demo.m_ptr 0) = demo.heap.m_rc (demo.m_ptr 0) + 1 ∧
    demo.m_ptr 3 = nullptr ∧
    (∃ ppv, set demo 3 = some ppv ∧ operator_eq (CopyTo demo 0 ppv) 3 0 = true) :=
  have h := CopyTo_effect demo 0 (Loc.var 0)
  ⟨by decide, h.1, (h.2.2.1 (by decide)).1, by decide, h.2.2.2.2 3 (by decide)⟩

/-- Counterexample to C14 as stated, on `demo`: wrapper 0 already holds object
7 (count 1).  After `CopyFrom` with the non-null raw reference 7 the count of
object 7 is still 1, not one greater. -/
theorem CopyFrom_counterexample :
    (7 : Ptr) ≠ nullptr ∧ demo.m_ptr 0 = 7 ∧
    demo.heap.m_rc 7 = 1 ∧
    (CopyFrom demo 0 7).heap.m_rc 7 = 1 ∧
    (CopyFrom demo 0 7).heap.m_rc 7 ≠ demo.heap.m_rc 7 + 1 := by
  decide

/-- Witness for C15, on `demo`: wrappers 1 and 2 hold the same object, wrappers
0 and 1 hold distinct objects, wrappers 3 and 4 are empty. -/
theorem operator_eq_iff_witness :
    get demo 1 = get demo 2 ∧ operator_eq demo 1 2 = true ∧
    demo.m_ptr 0 ≠ demo.m_ptr 1 ∧ operator_eq demo 0 1 = false ∧
    operator_eq demo 3 4 = true :=
  ⟨by decide, (operator_eq_iff demo 1 2).1.mpr (by decide), by decide,
    (operator_eq_iff demo 0 1).2.2.1 (by decide),
    (operator_eq_iff demo 3 4).2.1 (by decide) (by decide)⟩

/-- Witness for C16, on `demo`: wrapper 3 (empty), wrapper 0 (object 7) and
wrapper 1 (object 9) are in increasing order; wrappers 1 and 2 are
incomparable and equal. -/
theorem operator_lt_strict_weak_witness :
    operator_lt demo 3 0 = true ∧ operator_lt demo 0 1 = true ∧
    operator_lt demo 3 1 = true ∧
    operator_lt demo 1 2 = false ∧ operator_lt demo 2 1 = false ∧
    operator_eq demo 1 2 = true :=
  have h := (operator_lt_strict_weak demo 3 0 1).2.1 (by decide) (by decide)
  have e : operator_lt demo 1 2 = false ∧ operator_lt demo 2 1 = false := by decide
  ⟨by decide, by decide, h, e.1, e.2, (operator_lt_strict_weak demo 1 2 0).2.2.2.mp e⟩

/-- Witness for C17, on `demo`: the empty wrapper 3 and the raw reference 7. -/
theorem set_effect_witness :
    demo.m_ptr 3 = nullptr ∧ set demo 3 = some (Loc.slot 3) ∧
    (store demo (Loc.slot 3) 7).m_ptr 3 = 7 ∧
    (store demo (Loc.slot 3) 7).heap = demo.heap :=
  have h := set_effect demo 3
  have e := h.2.1 (by decide)
  have d := h.2.2 (Loc.slot 3) 7 e
  ⟨by decide, e, d.1, d.2.2.2⟩

/-- Witness for C18, on `demo`: wrapper 0 (object 7) is below wrapper 1
(object 9). -/
theorem comparison_consistent_witness :
    operator_ne demo 0 1 = true ∧ operator_lt demo 0 1 = true ∧
    (operator_lt demo 0 1 = true ∨ operator_gt demo 0 1 = true) ∧
    operator_gt demo 1 0 = true ∧ operator_ge demo 1 0 = true ∧
    operator_le demo 1 0 = false :=
  have h := comparison_consistent demo 0 1
  have d := h.2.2.2.2 (by decide)
  ⟨by decide, by decide, (h.2.2.2.1 (by decide)).1, d.1, d.2.1, d.2.2⟩

/-- Witness for C19, on `demo`: wrapper 0 is the sole holder of object 7
(count 1); attaching its own raw reference leaves it non-empty on an object of
count zero that has been destroyed. -/
theorem attach_self_effect_witness :
    demo.m_ptr 0 ≠ nullptr ∧ demo.heap.m_rc (demo.m_ptr 0) = 1 ∧
    (attach demo 0 (get demo 0)).m_ptr 0 = demo.m_ptr 0 ∧
    operator_bool (attach demo 0 (get demo 0)) 0 = true ∧
    (attach demo 0 (get demo 0)).heap.m_rc (demo.m_ptr 0) = 0 ∧
    (attach demo 0 (get demo 0)).heap.deleted (demo.m_ptr 0)
      = demo.heap.deleted (demo.m_ptr 0) + 1 :=
  have h := attach_self_effect demo 0 (by decide)
  have d := h.2.2.2.2 (by decide)
  ⟨by decide, by decide, h.1, h.2.1, d.1, d.2⟩

/-! ## CopyFrom on objects with several interface pointers -/

namespace Aliased

theorem Release_obj (h : Heap) (p : Ptr) : (Release h p).obj = h.obj := rfl

theorem AddRef_obj (h : Heap) (p : Ptr) : (AddRef h p).obj = h.obj := rfl

theorem per_object_Release_m_rc (h : Heap) (p : Ptr) (o : Nat) :
    (Release h p).m_rc o = if o = h.obj p then h.m_rc o - 1 else h.m_rc o := by
  by_cases hp : o = h.obj p <;> simp [Release, Function.update, hp]

theorem per_object_Release_deleted (h : Heap) (p : Ptr) (o : Nat) :
    (Release h p).deleted o =
      if o = h.obj p ∧ h.m_rc o = 1 then h.deleted o + 1 else h.deleted o := by
  by_cases hp : o = h.obj p
  · subst hp
    by_cases h1 : h.m_rc (h.obj p) = 1
    · simp [Release, h1]
    · have h2 : ¬ (h.m_rc (h.obj p) - 1 = 0) := by omega
      simp [Release, h1, h2]
  · simp only [Release, hp, false_and, if_false]
    split_ifs <;> simp [Function.update, hp]

theorem per_object_AddRef_m_rc (h : Heap) (p : Ptr) (o : Nat) :
    (AddRef h p).m_rc o = if o = h.obj p then h.m_rc o + 1 else h.m_rc o := by
  by_cases hp : o = h.obj p <;> simp [AddRef, Function.update, hp]

theorem per_object_InternalCopy_ne (s : State) (this : Nat) (r : Ptr)
    (hne : s.m_ptr this ≠ r) (hr : r ≠ nullptr) :
    (InternalCopy s this r).m_ptr = Function.update s.m_ptr this r ∧
    (InternalCopy s this r).heap =
      AddRef (if s.m_ptr this ≠ nullptr then Release s.heap (s.m_ptr this) else s.heap) r := by
  unfold InternalCopy
  rw [if_pos hne]
  by_cases h0 : s.m_ptr this = nullptr
  · simp [InternalRelease, InternalAddRef, h0, hr]
  · simp [InternalRelease, InternalAddRef, h0, hr]

/-- C14, as amended: for a non-null raw reference `r`, after `CopyFrom(r)` the
wrapper holds `r` and is non-empty.  When the wrapper was empty, or held a
reference to an object other than the object of `r`, the count of the object of
`r` is exactly one greater than before, the prior target (if any) has lost
exactly one, no other count has changed, and after the caller releases its own
reference the count of the object of `r` is what it was before the call,
without the object being destroyed by that release if the count was not zero.
When the wrapper already held the raw reference `r`, nothing changes at all:
the count is not raised. -/
theorem CopyFrom_object_effect (s : State) (this : Nat) (r : Ptr) (hr : r ≠ nullptr) :
    (CopyFrom s this r).m_ptr this = r ∧
    operator_bool (CopyFrom s this r) this = true ∧
    (CopyFrom s this r).heap.obj = s.heap.obj ∧
    (s.m_ptr this = nullptr ∨ s.heap.obj (s.m_ptr this) ≠ s.heap.obj r →
      (CopyFrom s this r).heap.m_rc (s.heap.obj r) = s.heap.m_rc (s.heap.obj r) + 1 ∧
      (s.m_ptr this ≠ nullptr →
        (CopyFrom s this r).heap.m_rc (s.heap.obj (s.m_ptr this))
          = s.heap.m_rc (s.heap.obj (s.m_ptr this)) - 1) ∧
      (∀ o, (o ≠ s.heap.obj (s.m_ptr this) ∨ s.m_ptr this = nullptr) → o ≠ s.heap.obj r →
        (CopyFrom s this r).heap.m_rc o = s.heap.m_rc o) ∧
      (Release (CopyFrom s this r).heap r).m_rc (s.heap.obj r) = s.heap.m_rc (s.heap.obj r) ∧
      (s.heap.m_rc (s.heap.obj r) ≠ 0 →
        (Release (CopyFrom s this r).heap r).deleted (s.heap.obj r)
          = (CopyFrom s this r).heap.deleted (s.heap.obj r))) ∧
    (s.m_ptr this = r → CopyFrom s this r = s) := by
  have hm : (CopyFrom s this r).m_ptr this = r := by
    unfold CopyFrom InternalCopy
    by_cases h : s.m_ptr this = r
    · simp [h]
    · have e := (per_object_InternalCopy_ne s this r h hr).1
      unfold InternalCopy at e
      rw [e, Function.update_same]
  have ho : (CopyFrom s this r).heap.obj = s.heap.obj := by
    unfold CopyFrom
    by_cases h : s.m_ptr this = r
    · simp [InternalCopy, h]
    · rw [(per_object_InternalCopy_ne s this r h hr).2]
      split_ifs <;> rfl
  refine ⟨hm, by simp [operator_bool, hm, hr], ho, ?_, ?_⟩
  · intro hcase
    have hne : s.m_ptr this ≠ r := by
      rcases hcase with h | h
      · intro e
        exact hr (e.symm.trans h)
      · intro e
        exact h (by rw [e])
    have hheap := (per_object_InternalCopy_ne s this r hne hr).2
    have hrc : (CopyFrom s this r).heap.m_rc (s.heap.obj r) = s.heap.m_rc (s.heap.obj r) + 1 := by
      unfold CopyFrom
      rw [hheap]
      by_cases h0 : s.m_ptr this = nullptr
      · simp [h0, per_object_AddRef_m_rc]
      · have h1 : s.heap.obj r ≠ s.heap.obj (s.m_ptr this) := by
          rcases hcase with h | h
          · exact absurd h h0
          · exact fun e => h e.symm
        simp [h0, per_object_AddRef_m_rc, per_object_Release_m_rc, Release_obj, h1]
    refine ⟨hrc, ?_, ?_, ?_, ?_⟩
    · intro h0
      have h1 : s.heap.obj (s.m_ptr this) ≠ s.heap.obj r := by
        rcases hcase with h | h
        · exact absurd h h0
        · exact h
      unfold CopyFrom
      rw [hheap]
      simp [h0, per_object_AddRef_m_rc, per_object_Release_m_rc, Release_obj, h1]
    · intro o h1 h2
      unfold CopyFrom
      rw [hheap]
      by_cases h0 : s.m_ptr this = nullptr
      · simp [h0, per_object_AddRef_m_rc, h2]
      · have h3 : o ≠ s.heap.obj (s.m_ptr this) := by
          rcases h1 with h1 | h1
          · exact h1
          · exact absurd h1 h0
        simp [h0, per_object_AddRef_m_rc, per_object_Release_m_rc, Release_obj, h2, h3]
    · rw [per_object_Release_m_rc, ho, if_pos rfl, hrc]
      omega
    · intro hz
      rw [per_object_Release_deleted, ho, hrc]
      have : ¬ (s.heap.obj r = s.heap.obj r ∧ s.heap.m_rc (s.heap.obj r) + 1 = 1) := by
        rintro ⟨_, e⟩
        omega
      rw [if_neg this]
  · intro h
    simp [CopyFrom, InternalCopy, h]

/-- Witness for C14 as amended, on the state `demo` of this section: the empty
wrapper 3 copies from the raw reference 40 (object 32, count 2), and wrapper 0
(object 16) copies from the raw reference 40; wrapper 2 already holds 40. -/
theorem CopyFrom_object_effect_witness :
    (40 : Ptr) ≠ nullptr ∧ demo.m_ptr 3 = nullptr ∧
    (CopyFrom demo 3 40).m_ptr 3 = 40 ∧
    (CopyFrom demo 3 40).heap.m_rc (demo.heap.obj 40) = demo.heap.m_rc (demo.heap.obj 40) + 1 ∧
    (Release (CopyFrom demo 3 40).heap 40).m_rc (demo.heap.obj 40)
      = demo.heap.m_rc (demo.heap.obj 40) ∧
    demo.heap.obj (demo.m_ptr 0) ≠ demo.heap.obj 40 ∧
    (CopyFrom demo 0 40).heap.m_rc (demo.heap.obj 40) = demo.heap.m_rc (demo.heap.obj 40) + 1 ∧
    (CopyFrom demo 0 40).heap.m_rc (demo.heap.obj (demo.m_ptr 0))
      = demo.heap.m_rc (demo.heap.obj (demo.m_ptr 0)) - 1 ∧
    demo.m_ptr 2 = 40 ∧ CopyFrom demo 2 40 = demo :=
  have h := CopyFrom_object_effect demo 3 40 (by decide)
  have d := h.2.2.2.1 (Or.inl (by decide))
  have k := CopyFrom_object_effect demo 0 40 (by decide)
  have e := k.2.2.2.1 (Or.inr (by decide))
  ⟨by decide, by decide, h.1, d.1, d.2.2.2.1, by decide, e.1, e.2.1 (by decide),
    by decide, (CopyFrom_object_effect demo 2 40 (by decide)).2.2.2.2 (by decide)⟩

end Aliased

end IPtr
